import Mathlib

/-!
Shallow embedding of the cytoscape graph-transformation engine
(`graph/cytoscape/cytoscape.go`) of the kiali repository, together with
theorems settling the specification claims about it.

Modelling conventions:

* Go `float64` rate values are modelled exactly, as unreduced fractions
  (`Flt` below) with an always-positive denominator; the arithmetic the
  source performs on rates (addition, division by a nonzero value,
  multiplication by 100, comparisons against 0 and 100) is exact on the
  realistic inputs, so the fraction model is faithful.  IEEE division by
  zero (which yields `+Inf` in the source at the `httpPercentReq`
  computation) is modelled at its single use site by an explicit guard.
* Go `map` iteration order is nondeterministic; maps that are iterated
  are modelled as association lists, and a fixed map value corresponds
  to the class of its lists up to permutation.  Maps that are only
  looked up (the metadata bags) are association lists queried by key.
* Go's unchecked dynamic casts (`v.(float64)`, `v.(bool)`, ...) panic on
  a value of the wrong dynamic type.  Fallible computations are
  therefore modelled in the `Option` monad: `none` is a panic.
* `sort.Slice` with a comparison `less` is modelled by a stable
  insertion sort over the relation `fun a b => less b a = false`; the Go
  sort is unstable but deterministic, and no theorem below depends on
  how elements that compare equal are arranged.
-/

namespace Cytoscape

/-- Exact model of a `float64` rate value: the rational `num / (dpred + 1)`.
The denominator is stored as its predecessor so that every inhabitant of
the type denotes a genuine rational with positive denominator.  Rate
arithmetic in the source stays well inside the range where `float64`
arithmetic on telemetry values is exact, so fraction arithmetic is a
faithful model. -/
structure Flt where
  num : Int
  dpred : Nat
deriving DecidableEq

/-- Denominator of a `Flt` (always positive). -/
def Flt.den (f : Flt) : Nat := f.dpred + 1

/-- The rate value `0.0`. -/
def Flt.zero : Flt := ⟨0, 0⟩

/-- Embed an integer as a rate value. -/
def Flt.ofInt (n : Int) : Flt := ⟨n, 0⟩

/-- Build a fraction from a numerator and a positive denominator.
(When called with denominator `0`, which never happens below, the
denominator silently becomes `1`.) -/
def Flt.withDen (n : Int) (d : Nat) : Flt := ⟨n, d - 1⟩

/-- `a + b` on rate values. -/
def Flt.add (a b : Flt) : Flt :=
  Flt.withDen (a.num * (b.den : Int) + b.num * (a.den : Int)) (a.den * b.den)

/-- `a * b` on rate values. -/
def Flt.mul (a b : Flt) : Flt :=
  Flt.withDen (a.num * b.num) (a.den * b.den)

/-- `a / b` on rate values, meaningful only for `b.num ≠ 0`; every use
site below guards the division (the source's IEEE `x / 0 = ±Inf` is
modelled by the guard at the use site). -/
def Flt.div (a b : Flt) : Flt :=
  if 0 ≤ b.num then Flt.withDen (a.num * (b.den : Int)) (a.den * b.num.natAbs)
  else Flt.withDen (-(a.num * (b.den : Int))) (a.den * b.num.natAbs)

/-- `a < b` on rate values (cross multiplication; denominators are positive). -/
def Flt.blt (a b : Flt) : Bool := a.num * (b.den : Int) < b.num * (a.den : Int)

/-- `0.0 < a`, the strict-positivity test the source applies to rates. -/
def Flt.pos (a : Flt) : Bool := 0 < a.num

/-- The constant `100.0`. -/
def Flt.hundred : Flt := ⟨100, 0⟩

/-- Left-pad a digit string with zeros to width `w`. -/
def zeroPad (w : Nat) (s : String) : String :=
  ⟨List.replicate (w - s.data.length) '0'⟩ ++ s

/-- Model of Go's `fmt.Sprintf` with verb `%.<prec>f`: fixed-point
rendering of the exact value with `prec` digits after the point.  Ties
are rounded up; the source rounds ties to even, but no claim depends on
tie behaviour, and telemetry values are not ties. -/
def formatFixed (prec : Nat) (f : Flt) : String :=
  let p : Nat := 10 ^ prec
  let r : Int := Int.fdiv (2 * f.num * (p : Int) + (f.den : Int)) (2 * (f.den : Int))
  let sign := if r < 0 then "-" else ""
  let m := r.natAbs
  if prec = 0 then sign ++ Nat.repr m
  else sign ++ Nat.repr (m / p) ++ "." ++ zeroPad prec (Nat.repr (m % p))

/-- Byte-wise character comparison (code-point order, which agrees with
Go's byte-wise UTF-8 string order). -/
def chCmp (a b : Char) : Ordering :=
  if a.toNat < b.toNat then .lt else if b.toNat < a.toNat then .gt else .eq

/-- Lexicographic comparison of character lists. -/
def strCmpL : List Char → List Char → Ordering
  | [], [] => .eq
  | [], _ :: _ => .lt
  | _ :: _, [] => .gt
  | a :: as, b :: bs =>
    match chCmp a b with
    | .eq => strCmpL as bs
    | o => o

/-- Model of Go's built-in string comparison (lexicographic). -/
def strCmp (a b : String) : Ordering := strCmpL a.data b.data

/-- Go's `a < b` on strings. -/
def strLt (a b : String) : Bool := strCmp a b == .lt

/-- One lowercase hex digit. -/
def hexDigit (n : Nat) : Char :=
  if n < 10 then Char.ofNat (48 + n) else Char.ofNat (87 + n)

/-- Six lowercase hex digits encoding a character's code point
(code points are below `16 ^ 6`). -/
def charHex (c : Char) : List Char :=
  [ hexDigit (c.toNat / 1048576 % 16), hexDigit (c.toNat / 65536 % 16),
    hexDigit (c.toNat / 4096 % 16), hexDigit (c.toNat / 256 % 16),
    hexDigit (c.toNat / 16 % 16), hexDigit (c.toNat % 16) ]

/-- Modelled from the spec: the Identity Hasher (`crypto/md5`, outside
this repository) is specified in §4.1 as a deterministic map from
logical identifier strings to lowercase-hexadecimal tokens with no
collisions at realistic graph sizes; it is modelled as an injective
deterministic lowercase-hex encoding of the string. -/
def md5hex (s : String) : String := ⟨(s.data.map charHex).flatten⟩

/-- `nodeHash` of the source: hash of a logical node id. -/
def nodeHash (id : String) : String := md5hex id

/-- `edgeHash` of the source: hash of `from.to.protocol`. -/
def edgeHash (fr tgt protocol : String) : String :=
  md5hex (fr ++ "." ++ tgt ++ "." ++ protocol)

/-- Dynamically-typed metadata value (`interface\x7b\x7d` in the source):
a rate, a flag, a label, or a string set (`map[string]bool`). -/
inductive MetaVal where
  | num (f : Flt)
  | bool (b : Bool)
  | str (s : String)
  | strSet (m : List (String × Bool))
deriving DecidableEq

/-- A metadata bag: association list from attribute name to value. -/
def Metadata := List (String × MetaVal)
deriving DecidableEq

/-- Key lookup in a metadata bag. -/
def mlookup : Metadata → String → Option MetaVal
  | [], _ => none
  | (k, v) :: rest, key => if k = key then some v else mlookup rest key

/-- Modelled from the spec (§3): the input `GraphNode`'s scalar fields
(the `graph` package is outside `src/`). -/
structure NodeCore where
  ID : String
  NodeType : String
  Namespace : String
  Workload : String
  App : String
  Version : String
  Service : String
  Metadata : Metadata
deriving DecidableEq

/-- Modelled from the spec (§3): the input `GraphEdge`, with its
back-reference to the source node and reference to the destination. -/
structure Edge where
  Source : NodeCore
  Dest : NodeCore
  Metadata : Metadata
deriving DecidableEq

/-- Modelled from the spec (§3): the input `GraphNode` together with its
outgoing edges. -/
structure Node extends NodeCore where
  Edges : List Edge
deriving DecidableEq

/-- Modelled from the spec (§3, §6): the input `TrafficGraph`, a map from
logical node id to node; modelled as an association list carrying one
iteration order of the Go map, so that a fixed map value is the class of
these lists up to permutation. -/
def TrafficMap := List (String × Node)
deriving DecidableEq

/-- Modelled from the spec (§6): the caller configuration
(`options.VendorOptions`; the `options` package is outside `src/`).
`Duration` is the query duration in seconds, `QueryTime` the epoch
timestamp. -/
structure VendorOptions where
  GraphType : String
  GroupBy : String
  Duration : Int
  QueryTime : Int
deriving DecidableEq

/-- Modelled from the spec (§4.4): `options.GroupByApp`. -/
def GroupByApp : String := "app"

/-- Modelled from the spec (§4.4): `options.GroupByVersion`. -/
def GroupByVersion : String := "version"

/-- Modelled from the spec (§4.4, §6): `graph.GraphTypeService` (the
graph type with service nodes only). -/
def GraphTypeService : String := "service"

/-- Modelled from the spec (§4.4, §6): `graph.GraphTypeVersionedApp`
(the graph type distinguishing per-version app nodes). -/
def GraphTypeVersionedApp : String := "versionedApp"

/-- Modelled from the spec (§3): `graph.NodeTypeApp`. -/
def NodeTypeApp : String := "app"

/-- `NodeData` of the source: one output node record.  String and Bool
fields carry Go's `omitempty` JSON semantics: the zero value (`""`,
`false`, `[]`) means the field is absent from the emitted document. -/
structure NodeData where
  Id : String
  Parent : String := ""
  NodeType : String
  Namespace : String
  Workload : String := ""
  App : String := ""
  Version : String := ""
  Service : String := ""
  DestServices : List (String × Bool) := []
  HttpIn : String := ""
  HttpIn3xx : String := ""
  HttpIn4xx : String := ""
  HttpIn5xx : String := ""
  HttpOut : String := ""
  TcpIn : String := ""
  TcpOut : String := ""
  HasCB : Bool := false
  HasMissingSC : Bool := false
  HasVS : Bool := false
  IsDead : Bool := false
  IsGroup : String := ""
  IsInaccessible : Bool := false
  IsMisconfigured : String := ""
  IsOutside : Bool := false
  IsRoot : Bool := false
  IsServiceEntry : String := ""
  IsUnused : Bool := false
deriving DecidableEq

/-- `EdgeData` of the source: one output edge record (same `omitempty`
reading of zero values as for `NodeData`). -/
structure EdgeData where
  Id : String
  Source : String
  Target : String
  Http : String := ""
  Http3xx : String := ""
  Http4xx : String := ""
  Http5xx : String := ""
  HttpPercentErr : String := ""
  HttpPercentReq : String := ""
  ResponseTime : String := ""
  IsMTLS : Bool := false
  IsUnused : Bool := false
  Tcp : String := ""
deriving DecidableEq

/-- `NodeWrapper` of the source. -/
structure NodeWrapper where
  data : NodeData
deriving DecidableEq

/-- `EdgeWrapper` of the source. -/
structure EdgeWrapper where
  data : EdgeData
deriving DecidableEq

/-- `Elements` of the source. -/
structure Elements where
  nodes : List NodeWrapper
  edges : List EdgeWrapper
deriving DecidableEq

/-- `Config` of the source: the final output document. -/
structure Config where
  Timestamp : Int
  Duration : Int
  GraphType : String
  Elements : Elements
deriving DecidableEq

/-- Per-field update functions for the output records (the source's
`nd.X = v` / `ed.X = v` assignments).  Naming them keeps the terms the
proofs manipulate small. -/
def nsetHttpIn (v : String) (x : NodeData) : NodeData := { x with HttpIn := v }

def nsetHttpIn3xx (v : String) (x : NodeData) : NodeData := { x with HttpIn3xx := v }

def nsetHttpIn4xx (v : String) (x : NodeData) : NodeData := { x with HttpIn4xx := v }

def nsetHttpIn5xx (v : String) (x : NodeData) : NodeData := { x with HttpIn5xx := v }

def nsetHttpOut (v : String) (x : NodeData) : NodeData := { x with HttpOut := v }

def nsetTcpIn (v : String) (x : NodeData) : NodeData := { x with TcpIn := v }

def nsetTcpOut (v : String) (x : NodeData) : NodeData := { x with TcpOut := v }

def nsetIsDead (v : Bool) (x : NodeData) : NodeData := { x with IsDead := v }

def nsetIsRoot (v : Bool) (x : NodeData) : NodeData := { x with IsRoot := v }

def nsetIsUnused (v : Bool) (x : NodeData) : NodeData := { x with IsUnused := v }

def nsetIsInaccessible (v : Bool) (x : NodeData) : NodeData := { x with IsInaccessible := v }

def nsetHasCB (v : Bool) (x : NodeData) : NodeData := { x with HasCB := v }

def nsetHasVS (v : Bool) (x : NodeData) : NodeData := { x with HasVS := v }

def nsetHasMissingSC (v : Bool) (x : NodeData) : NodeData := { x with HasMissingSC := v }

def nsetIsMisconfigured (v : String) (x : NodeData) : NodeData := { x with IsMisconfigured := v }

def nsetIsOutside (v : Bool) (x : NodeData) : NodeData := { x with IsOutside := v }

def nsetDestServices (v : List (String × Bool)) (x : NodeData) : NodeData := { x with DestServices := v }

def nsetIsServiceEntry (v : String) (x : NodeData) : NodeData := { x with IsServiceEntry := v }

def nsetParent (v : String) (x : NodeData) : NodeData := { x with Parent := v }

def esetHttp (v : String) (x : EdgeData) : EdgeData := { x with Http := v }

def esetHttp3xx (v : String) (x : EdgeData) : EdgeData := { x with Http3xx := v }

def esetHttp4xx (v : String) (x : EdgeData) : EdgeData := { x with Http4xx := v }

def esetHttp5xx (v : String) (x : EdgeData) : EdgeData := { x with Http5xx := v }

def esetHttpPercentErr (v : String) (x : EdgeData) : EdgeData := { x with HttpPercentErr := v }

def esetHttpPercentReq (v : String) (x : EdgeData) : EdgeData := { x with HttpPercentReq := v }

def esetResponseTime (v : String) (x : EdgeData) : EdgeData := { x with ResponseTime := v }

def esetIsMTLS (v : Bool) (x : EdgeData) : EdgeData := { x with IsMTLS := v }

def esetIsUnused (v : Bool) (x : EdgeData) : EdgeData := { x with IsUnused := v }

def esetTcp (v : String) (x : EdgeData) : EdgeData := { x with Tcp := v }

/-- The source's `if cond \x7b x = update(x) \x7d` statement shape: apply a
record update when the condition holds. -/
def applyIf {α : Type _} (c : Bool) (f : α → α) (x : α) : α :=
  if c then f x else x

/-- The source's `if val, ok := md[k]; ok \x7b x = update(x, val) \x7d`
statement shape: apply a record update when the optional value is present. -/
def applyOpt {α : Type _} {β : Type _} (v : Option β) (f : β → α → α) (x : α) : α :=
  match v with
  | some b => f b x
  | none => x

/-- `getRate` of the source: look up a rate; an absent key yields `0.0`,
a present value of non-`float64` dynamic type panics (`none`). -/
def getRate (md : Metadata) (k : String) : Option Flt :=
  match mlookup md k with
  | some (.num f) => some f
  | some _ => none
  | none => some Flt.zero

/-- Look up an optional boolean flag: absent is `some none`; a present
non-`bool` value panics (the source's `val.(bool)`). -/
def metaBool (md : Metadata) (k : String) : Option (Option Bool) :=
  match mlookup md k with
  | some (.bool b) => some (some b)
  | some _ => none
  | none => some none

/-- Look up an optional string value (the source's `val.(string)`). -/
def metaStr (md : Metadata) (k : String) : Option (Option String) :=
  match mlookup md k with
  | some (.str s) => some (some s)
  | some _ => none
  | none => some none

/-- Look up an optional rate value whose presence the caller tests (the
source's `val.(float64)` under `if val, ok := ...; ok`). -/
def metaRate (md : Metadata) (k : String) : Option (Option Flt) :=
  match mlookup md k with
  | some (.num f) => some (some f)
  | some _ => none
  | none => some none

/-- Look up an optional string set (the source's `val.(map[string]bool)`). -/
def metaStrSet (md : Metadata) (k : String) : Option (Option (List (String × Bool))) :=
  match mlookup md k with
  | some (.strSet m) => some (some m)
  | some _ => none
  | none => some none

/-- `addNodeTelemetry` of the source, decorating a node record with the
rate fields; the metadata reads happen in source order, so a rate of the
wrong dynamic type panics exactly when the source would reach its cast. -/
def addNodeTelemetry (md : Metadata) (nd : NodeData) : Option NodeData :=
  (getRate md "httpIn").bind fun httpIn =>
  (if httpIn.pos then
    (getRate md "httpIn3xx").bind fun httpIn3xx =>
    (getRate md "httpIn4xx").bind fun httpIn4xx =>
    (getRate md "httpIn5xx").bind fun httpIn5xx =>
    let nd := nsetHttpIn (formatFixed 2 httpIn) nd
    let nd := applyIf httpIn3xx.pos (nsetHttpIn3xx (formatFixed 2 httpIn3xx)) nd
    let nd := applyIf httpIn4xx.pos (nsetHttpIn4xx (formatFixed 2 httpIn4xx)) nd
    let nd := applyIf httpIn5xx.pos (nsetHttpIn5xx (formatFixed 2 httpIn5xx)) nd
    some nd
  else some nd).bind fun nd =>
  (getRate md "httpOut").bind fun httpOut =>
  let nd := applyIf httpOut.pos (nsetHttpOut (formatFixed 2 httpOut)) nd
  (getRate md "tcpIn").bind fun tcpIn =>
  (getRate md "tcpOut").bind fun tcpOut =>
  let nd := applyIf tcpIn.pos (nsetTcpIn (formatFixed 2 tcpIn)) nd
  let nd := applyIf tcpOut.pos (nsetTcpOut (formatFixed 2 tcpOut)) nd
  some nd

/-- The guarded formatting decision `httpPercentReq < 100.0` of the
source, on IEEE semantics: when the source node's outbound rate is zero
the quotient is `+Inf` (the edge rate is positive in the only calling
context) and the comparison is false. -/
def percentReqLt100 (http httpOut : Flt) : Bool :=
  if httpOut.num = 0 then false
  else Flt.blt (Flt.mul (Flt.div http httpOut) Flt.hundred) Flt.hundred

/-- `addEdgeTelemetry` of the source, decorating an edge record. -/
def addEdgeTelemetry (ed : EdgeData) (e : Edge) : Option EdgeData :=
  (getRate e.Metadata "http").bind fun http =>
  (if http.pos then
    (getRate e.Metadata "http3xx").bind fun http3xx =>
    (getRate e.Metadata "http4xx").bind fun http4xx =>
    (getRate e.Metadata "http5xx").bind fun http5xx =>
    let httpErr := Flt.add http4xx http5xx
    let httpPercentErr := Flt.mul (Flt.div httpErr http) Flt.hundred
    let ed := esetHttp (formatFixed 2 http) ed
    let ed := applyIf http3xx.pos (esetHttp3xx (formatFixed 2 http3xx)) ed
    let ed := applyIf http4xx.pos (esetHttp4xx (formatFixed 2 http4xx)) ed
    let ed := applyIf http5xx.pos (esetHttp5xx (formatFixed 2 http5xx)) ed
    let ed := applyIf httpPercentErr.pos (esetHttpPercentErr (formatFixed 1 httpPercentErr)) ed
    (metaRate e.Metadata "responseTime").bind fun rt =>
    let ed := applyOpt rt (fun responseTime => esetResponseTime (formatFixed 0 responseTime)) ed
    (getRate e.Source.Metadata "httpOut").bind fun srcHttpOut =>
    let ed := applyIf (percentReqLt100 http srcHttpOut)
      (esetHttpPercentReq (formatFixed 1 (Flt.mul (Flt.div http srcHttpOut) Flt.hundred))) ed
    some ed
  else
    (metaBool e.Source.Metadata "isUnused").bind fun v =>
    some (applyOpt v esetIsUnused ed)).bind fun ed =>
  (metaBool e.Metadata "isMTLS").bind fun v =>
  let ed := applyOpt v esetIsMTLS ed
  (getRate e.Metadata "tcp").bind fun tcp =>
  some (applyIf tcp.pos (esetTcp (formatFixed 2 tcp)) ed)

/-- The per-node body of the source's `buildConfig` loop: build one
output node record from one traffic-map entry (identity fields,
telemetry, then the metadata flags, in source order). -/
def buildNode (id : String) (n : Node) : Option NodeData :=
  let nd : NodeData :=
    { Id := nodeHash id
      NodeType := n.NodeType
      Namespace := n.Namespace
      Workload := n.Workload
      App := n.App
      Version := n.Version
      Service := n.Service }
  (addNodeTelemetry n.Metadata nd).bind fun nd =>
  (metaBool n.Metadata "isDead").bind fun v =>
  let nd := applyOpt v nsetIsDead nd
  (metaBool n.Metadata "isRoot").bind fun v =>
  let nd := applyOpt v nsetIsRoot nd
  (metaBool n.Metadata "isUnused").bind fun v =>
  let nd := applyOpt v nsetIsUnused nd
  (metaBool n.Metadata "isInaccessible").bind fun v =>
  let nd := applyOpt v nsetIsInaccessible nd
  (metaBool n.Metadata "hasCB").bind fun v =>
  let nd := applyOpt v nsetHasCB nd
  (metaBool n.Metadata "hasVS").bind fun v =>
  let nd := applyOpt v nsetHasVS nd
  (metaBool n.Metadata "hasMissingSC").bind fun v =>
  let nd := applyOpt v nsetHasMissingSC nd
  (metaStr n.Metadata "isMisconfigured").bind fun v =>
  let nd := applyOpt v nsetIsMisconfigured nd
  (metaBool n.Metadata "isOutside").bind fun v =>
  let nd := applyOpt v nsetIsOutside nd
  (metaStrSet n.Metadata "destServices").bind fun v =>
  let nd := applyOpt v nsetDestServices nd
  (metaStr n.Metadata "isServiceEntry").bind fun v =>
  let nd := applyOpt v nsetIsServiceEntry nd
  some nd

/-- The edge-protocol extraction of the source's `buildConfig` loop: an
absent `protocol` key yields `""`; a present non-string value panics. -/
def protocolOf (e : Edge) : Option String :=
  match mlookup e.Metadata "protocol" with
  | some (.str s) => some s
  | some _ => none
  | none => some ""

/-- The per-edge body of the source's `buildConfig` loop: one output
edge record for an edge of node `n`. -/
def buildEdge (n : Node) (e : Edge) : Option EdgeData :=
  let sourceIdHash := nodeHash n.ID
  let destIdHash := nodeHash e.Dest.ID
  (protocolOf e).bind fun protocol =>
  let edgeId := edgeHash sourceIdHash destIdHash protocol
  let ed : EdgeData :=
    { Id := edgeId
      Source := sourceIdHash
      Target := destIdHash }
  addEdgeTelemetry ed e

/-- All output edge records of one traffic-map entry, in edge-list order. -/
def buildEdges (n : Node) : Option (List EdgeData) :=
  n.Edges.mapM (buildEdge n)

/-- `buildConfig` of the source: one pass over the traffic map in
iteration order, emitting one node record per node and one edge record
per edge (edges grouped after their owning node's position). -/
def buildConfig : TrafficMap → Option (List NodeData × List EdgeData)
  | [] => some ([], [])
  | (id, n) :: rest =>
    (buildNode id n).bind fun nd =>
    (buildEdges n).bind fun eds =>
    (buildConfig rest).bind fun p =>
    some (nd :: p.1, eds ++ p.2)

/-- The compound-node key the source computes with
`fmt.Sprintf("box_%s_%s", namespace, app)`. -/
def boxKey (nd : NodeData) : String :=
  "box_" ++ nd.Namespace ++ "_" ++ nd.App

instance : Inhabited NodeData :=
  ⟨{ Id := "", NodeType := "", Namespace := "" }⟩

/-- The aggregated compound node the source allocates for a key `k` with
member list `members` (fields from `members[0]`, flags the OR of the
members' flags). -/
def mkGroupNode (groupBy : String) (k : String) (members : List NodeData) : NodeData :=
  { Id := nodeHash k
    NodeType := NodeTypeApp
    Namespace := (members.headD default).Namespace
    App := (members.headD default).App
    Version := ""
    Workload := ""
    Service := ""
    IsGroup := groupBy
    HasMissingSC := members.any (·.HasMissingSC)
    IsInaccessible := members.any (·.IsInaccessible)
    IsOutside := members.any (·.IsOutside) }

/-- The candidate list of one grouping pass (`appBox`'s contents, in
scan order). -/
def groupCands (isMember : NodeData → Bool) (nodes : List NodeData) : List NodeData :=
  nodes.filter isMember

/-- The keys of `appBox` whose member list has at least two entries, in
a canonical order (the Go map iteration order is arbitrary). -/
def groupBigKeys (isMember : NodeData → Bool) (nodes : List NodeData) : List String :=
  (((groupCands isMember nodes).map boxKey).dedup).filter
    (fun k => 1 < ((groupCands isMember nodes).filter (fun nd => boxKey nd = k)).length)

/-- `generateGroupCompoundNodes` of the source, as a pure function on
the node list: the `appBox` map groups the candidate nodes (selected by
`isMember`) by their `boxKey`, in scan order; every key with at least
two members has each member's `Parent` set to the hash of the key
(members of the node list are aliased in the source, so the update is a
map over the list) and one compound node appended. -/
def generateGroupCompoundNodes (isMember : NodeData → Bool) (groupBy : String)
    (nodes : List NodeData) : List NodeData :=
  (nodes.map (fun nd =>
    if isMember nd ∧ boxKey nd ∈ groupBigKeys isMember nodes
    then nsetParent (nodeHash (boxKey nd)) nd else nd))
  ++ (groupBigKeys isMember nodes).map (fun k =>
      mkGroupNode groupBy k ((groupCands isMember nodes).filter (fun nd => boxKey nd = k)))

/-- The candidate filter of the source's `groupByVersion`: nodes of
type App. -/
def versionGroupMember (nd : NodeData) : Bool := nd.NodeType = NodeTypeApp

/-- The candidate filter of the source's `groupByApp`: nodes with a
known, nonempty app. -/
def appGroupMember (nd : NodeData) : Bool := nd.App ≠ "unknown" ∧ nd.App ≠ ""

/-- `groupByVersion` of the source: group nodes of type App. -/
def groupByVersion (nodes : List NodeData) : List NodeData :=
  generateGroupCompoundNodes versionGroupMember GroupByVersion nodes

/-- `groupByApp` of the source: group nodes with a known nonempty app. -/
def groupByApp (nodes : List NodeData) : List NodeData :=
  generateGroupCompoundNodes appGroupMember GroupByApp nodes

/-- Recognising the compound node generated for key `k`: a group marker
plus the hashed key as id. -/
def isGroupNodeFor (k : String) (x : NodeData) : Bool :=
  decide (x.IsGroup ≠ "") && decide (x.Id = nodeHash k)

/-- The node comparison of the source's `sort.Slice` body, rendered as
an `Ordering` chain: the switch takes the first field where the records
differ — `Namespace` ascending, then `IsGroup` descending (note the
swapped arguments), then `App`, `Version`, `Service`, `Workload`
ascending. -/
def nodeCmp (a b : NodeData) : Ordering :=
  (strCmp a.Namespace b.Namespace).then
    ((strCmp b.IsGroup a.IsGroup).then
      ((strCmp a.App b.App).then
        ((strCmp a.Version b.Version).then
          ((strCmp a.Service b.Service).then
            (strCmp a.Workload b.Workload)))))

/-- The source's `less` closure over node wrappers. -/
def nodeLess (a b : NodeData) : Bool := nodeCmp a b == .lt

/-- The edge comparison of the source's `sort.Slice` body: `Source`
ascending, then `Target` ascending. -/
def edgeCmp (a b : EdgeData) : Ordering :=
  (strCmp a.Source b.Source).then (strCmp a.Target b.Target)

/-- The source's `less` closure over edge wrappers. -/
def edgeLess (a b : EdgeData) : Bool := edgeCmp a b == .lt

/-- The postcondition relation of `sort.Slice` with `nodeLess`. -/
def nodeLE (a b : NodeData) : Prop := ¬ nodeCmp b a = .lt

/-- The postcondition relation of `sort.Slice` with `edgeLess`. -/
def edgeLE (a b : EdgeData) : Prop := ¬ edgeCmp b a = .lt

instance : DecidableRel nodeLE := fun a b =>
  inferInstanceAs (Decidable (¬ nodeCmp b a = .lt))

instance : DecidableRel edgeLE := fun a b =>
  inferInstanceAs (Decidable (¬ edgeCmp b a = .lt))

/-- `NewConfig` of the source: build the records, optionally group,
sort nodes and edges, and assemble the output document. -/
def NewConfig (trafficMap : TrafficMap) (o : VendorOptions) : Option Config :=
  (buildConfig trafficMap).bind fun p =>
  let nodes := p.1
  let edges := p.2
  let nodes :=
    if o.GroupBy = GroupByApp then
      if o.GraphType ≠ GraphTypeService then groupByApp nodes else nodes
    else if o.GroupBy = GroupByVersion then
      if o.GraphType = GraphTypeVersionedApp then groupByVersion nodes else nodes
    else nodes
  let nodes := List.insertionSort nodeLE nodes
  let edges := List.insertionSort edgeLE edges
  some
    { Duration := o.Duration
      Timestamp := o.QueryTime
      GraphType := o.GraphType
      Elements :=
        { nodes := nodes.map NodeWrapper.mk
          edges := edges.map EdgeWrapper.mk } }

/-! ### Projection lemmas for the conditional-update combinators -/

theorem applyIf_proj {α γ : Type _} (proj : α → γ) (c : Bool) (f : α → α) (x : α)
    (hf : ∀ y, proj (f y) = proj y) : proj (applyIf c f x) = proj x := by
  unfold applyIf
  split <;> simp [hf]

theorem applyOpt_proj {α β γ : Type _} (proj : α → γ) (v : Option β) (f : β → α → α) (x : α)
    (hf : ∀ b y, proj (f b y) = proj y) : proj (applyOpt v f x) = proj x := by
  unfold applyOpt
  cases v <;> simp [hf]

theorem applyIf_proj_eq {α γ : Type _} (proj : α → γ) (c : Bool) (f : α → α) (x : α) :
    proj (applyIf c f x) = if c then proj (f x) else proj x := by
  unfold applyIf
  split <;> rfl

theorem applyOpt_proj_eq {α β γ : Type _} (proj : α → γ) (v : Option β) (f : β → α → α) (x : α) :
    proj (applyOpt v f x) =
      match v with
      | some b => proj (f b x)
      | none => proj x := by
  unfold applyOpt
  cases v <;> rfl

/-! ### Field bundles, and how each setter acts on them -/

/-- The identity fields of an edge record. -/
def edgeIdFields (x : EdgeData) : String × String × String := (x.Id, x.Source, x.Target)

/-- The two edge fields the claims about telemetry branches inspect. -/
def edgeReqUnused (x : EdgeData) : String × Bool := (x.HttpPercentReq, x.IsUnused)

/-- The identity and grouping fields of a node record. -/
def nodeCoreFields (x : NodeData) :
    String × String × String × String × String × String × String × String × String :=
  (x.Id, x.Parent, x.NodeType, x.Namespace, x.Workload, x.App, x.Version, x.Service, x.IsGroup)

/-- The seven rate fields of a node record. -/
def nodeTeleFields (x : NodeData) :
    String × String × String × String × String × String × String :=
  (x.HttpIn, x.HttpIn3xx, x.HttpIn4xx, x.HttpIn5xx, x.HttpOut, x.TcpIn, x.TcpOut)

theorem edgeIdFields_esetHttp (v : String) (y : EdgeData) :
    edgeIdFields (esetHttp v y) = edgeIdFields y := rfl

theorem edgeIdFields_esetHttp3xx (v : String) (y : EdgeData) :
    edgeIdFields (esetHttp3xx v y) = edgeIdFields y := rfl

theorem edgeIdFields_esetHttp4xx (v : String) (y : EdgeData) :
    edgeIdFields (esetHttp4xx v y) = edgeIdFields y := rfl

theorem edgeIdFields_esetHttp5xx (v : String) (y : EdgeData) :
    edgeIdFields (esetHttp5xx v y) = edgeIdFields y := rfl

theorem edgeIdFields_esetHttpPercentErr (v : String) (y : EdgeData) :
    edgeIdFields (esetHttpPercentErr v y) = edgeIdFields y := rfl

theorem edgeIdFields_esetHttpPercentReq (v : String) (y : EdgeData) :
    edgeIdFields (esetHttpPercentReq v y) = edgeIdFields y := rfl

theorem edgeIdFields_esetResponseTime (v : String) (y : EdgeData) :
    edgeIdFields (esetResponseTime v y) = edgeIdFields y := rfl

theorem edgeIdFields_esetIsMTLS (v : Bool) (y : EdgeData) :
    edgeIdFields (esetIsMTLS v y) = edgeIdFields y := rfl

theorem edgeIdFields_esetIsUnused (v : Bool) (y : EdgeData) :
    edgeIdFields (esetIsUnused v y) = edgeIdFields y := rfl

theorem edgeIdFields_esetTcp (v : String) (y : EdgeData) :
    edgeIdFields (esetTcp v y) = edgeIdFields y := rfl

theorem edgeReqUnused_esetHttp (v : String) (y : EdgeData) :
    edgeReqUnused (esetHttp v y) = edgeReqUnused y := rfl

theorem edgeReqUnused_esetHttp3xx (v : String) (y : EdgeData) :
    edgeReqUnused (esetHttp3xx v y) = edgeReqUnused y := rfl

theorem edgeReqUnused_esetHttp4xx (v : String) (y : EdgeData) :
    edgeReqUnused (esetHttp4xx v y) = edgeReqUnused y := rfl

theorem edgeReqUnused_esetHttp5xx (v : String) (y : EdgeData) :
    edgeReqUnused (esetHttp5xx v y) = edgeReqUnused y := rfl

theorem edgeReqUnused_esetHttpPercentErr (v : String) (y : EdgeData) :
    edgeReqUnused (esetHttpPercentErr v y) = edgeReqUnused y := rfl

theorem edgeReqUnused_esetResponseTime (v : String) (y : EdgeData) :
    edgeReqUnused (esetResponseTime v y) = edgeReqUnused y := rfl

theorem edgeReqUnused_esetIsMTLS (v : Bool) (y : EdgeData) :
    edgeReqUnused (esetIsMTLS v y) = edgeReqUnused y := rfl

theorem edgeReqUnused_esetTcp (v : String) (y : EdgeData) :
    edgeReqUnused (esetTcp v y) = edgeReqUnused y := rfl

theorem edgeReqUnused_esetHttpPercentReq (v : String) (y : EdgeData) :
    edgeReqUnused (esetHttpPercentReq v y) = (v, y.IsUnused) := rfl

theorem edgeReqUnused_esetIsUnused (v : Bool) (y : EdgeData) :
    edgeReqUnused (esetIsUnused v y) = (y.HttpPercentReq, v) := rfl

theorem nodeCoreFields_nsetHttpIn (v : String) (y : NodeData) :
    nodeCoreFields (nsetHttpIn v y) = nodeCoreFields y := rfl

theorem nodeCoreFields_nsetHttpIn3xx (v : String) (y : NodeData) :
    nodeCoreFields (nsetHttpIn3xx v y) = nodeCoreFields y := rfl

theorem nodeCoreFields_nsetHttpIn4xx (v : String) (y : NodeData) :
    nodeCoreFields (nsetHttpIn4xx v y) = nodeCoreFields y := rfl

theorem nodeCoreFields_nsetHttpIn5xx (v : String) (y : NodeData) :
    nodeCoreFields (nsetHttpIn5xx v y) = nodeCoreFields y := rfl

theorem nodeCoreFields_nsetHttpOut (v : String) (y : NodeData) :
    nodeCoreFields (nsetHttpOut v y) = nodeCoreFields y := rfl

theorem nodeCoreFields_nsetTcpIn (v : String) (y : NodeData) :
    nodeCoreFields (nsetTcpIn v y) = nodeCoreFields y := rfl

theorem nodeCoreFields_nsetTcpOut (v : String) (y : NodeData) :
    nodeCoreFields (nsetTcpOut v y) = nodeCoreFields y := rfl

theorem nodeCoreFields_nsetIsDead (v : Bool) (y : NodeData) :
    nodeCoreFields (nsetIsDead v y) = nodeCoreFields y := rfl

theorem nodeCoreFields_nsetIsRoot (v : Bool) (y : NodeData) :
    nodeCoreFields (nsetIsRoot v y) = nodeCoreFields y := rfl

theorem nodeCoreFields_nsetIsUnused (v : Bool) (y : NodeData) :
    nodeCoreFields (nsetIsUnused v y) = nodeCoreFields y := rfl

theorem nodeCoreFields_nsetIsInaccessible (v : Bool) (y : NodeData) :
    nodeCoreFields (nsetIsInaccessible v y) = nodeCoreFields y := rfl

theorem nodeCoreFields_nsetHasCB (v : Bool) (y : NodeData) :
    nodeCoreFields (nsetHasCB v y) = nodeCoreFields y := rfl

theorem nodeCoreFields_nsetHasVS (v : Bool) (y : NodeData) :
    nodeCoreFields (nsetHasVS v y) = nodeCoreFields y := rfl

theorem nodeCoreFields_nsetHasMissingSC (v : Bool) (y : NodeData) :
    nodeCoreFields (nsetHasMissingSC v y) = nodeCoreFields y := rfl

theorem nodeCoreFields_nsetIsMisconfigured (v : String) (y : NodeData) :
    nodeCoreFields (nsetIsMisconfigured v y) = nodeCoreFields y := rfl

theorem nodeCoreFields_nsetIsOutside (v : Bool) (y : NodeData) :
    nodeCoreFields (nsetIsOutside v y) = nodeCoreFields y := rfl

theorem nodeCoreFields_nsetDestServices (v : List (String × Bool)) (y : NodeData) :
    nodeCoreFields (nsetDestServices v y) = nodeCoreFields y := rfl

theorem nodeCoreFields_nsetIsServiceEntry (v : String) (y : NodeData) :
    nodeCoreFields (nsetIsServiceEntry v y) = nodeCoreFields y := rfl

theorem nodeTeleFields_nsetIsDead (v : Bool) (y : NodeData) :
    nodeTeleFields (nsetIsDead v y) = nodeTeleFields y := rfl

theorem nodeTeleFields_nsetIsRoot (v : Bool) (y : NodeData) :
    nodeTeleFields (nsetIsRoot v y) = nodeTeleFields y := rfl

theorem nodeTeleFields_nsetIsUnused (v : Bool) (y : NodeData) :
    nodeTeleFields (nsetIsUnused v y) = nodeTeleFields y := rfl

theorem nodeTeleFields_nsetIsInaccessible (v : Bool) (y : NodeData) :
    nodeTeleFields (nsetIsInaccessible v y) = nodeTeleFields y := rfl

theorem nodeTeleFields_nsetHasCB (v : Bool) (y : NodeData) :
    nodeTeleFields (nsetHasCB v y) = nodeTeleFields y := rfl

theorem nodeTeleFields_nsetHasVS (v : Bool) (y : NodeData) :
    nodeTeleFields (nsetHasVS v y) = nodeTeleFields y := rfl

theorem nodeTeleFields_nsetHasMissingSC (v : Bool) (y : NodeData) :
    nodeTeleFields (nsetHasMissingSC v y) = nodeTeleFields y := rfl

theorem nodeTeleFields_nsetIsMisconfigured (v : String) (y : NodeData) :
    nodeTeleFields (nsetIsMisconfigured v y) = nodeTeleFields y := rfl

theorem nodeTeleFields_nsetIsOutside (v : Bool) (y : NodeData) :
    nodeTeleFields (nsetIsOutside v y) = nodeTeleFields y := rfl

theorem nodeTeleFields_nsetDestServices (v : List (String × Bool)) (y : NodeData) :
    nodeTeleFields (nsetDestServices v y) = nodeTeleFields y := rfl

theorem nodeTeleFields_nsetIsServiceEntry (v : String) (y : NodeData) :
    nodeTeleFields (nsetIsServiceEntry v y) = nodeTeleFields y := rfl

theorem nodeTeleFields_nsetHttpIn (v : String) (y : NodeData) :
    nodeTeleFields (nsetHttpIn v y) =
      (v, y.HttpIn3xx, y.HttpIn4xx, y.HttpIn5xx, y.HttpOut, y.TcpIn, y.TcpOut) := rfl

theorem nodeTeleFields_nsetHttpIn3xx (v : String) (y : NodeData) :
    nodeTeleFields (nsetHttpIn3xx v y) =
      (y.HttpIn, v, y.HttpIn4xx, y.HttpIn5xx, y.HttpOut, y.TcpIn, y.TcpOut) := rfl

theorem nodeTeleFields_nsetHttpIn4xx (v : String) (y : NodeData) :
    nodeTeleFields (nsetHttpIn4xx v y) =
      (y.HttpIn, y.HttpIn3xx, v, y.HttpIn5xx, y.HttpOut, y.TcpIn, y.TcpOut) := rfl

theorem nodeTeleFields_nsetHttpIn5xx (v : String) (y : NodeData) :
    nodeTeleFields (nsetHttpIn5xx v y) =
      (y.HttpIn, y.HttpIn3xx, y.HttpIn4xx, v, y.HttpOut, y.TcpIn, y.TcpOut) := rfl

theorem nodeTeleFields_nsetHttpOut (v : String) (y : NodeData) :
    nodeTeleFields (nsetHttpOut v y) =
      (y.HttpIn, y.HttpIn3xx, y.HttpIn4xx, y.HttpIn5xx, v, y.TcpIn, y.TcpOut) := rfl

theorem nodeTeleFields_nsetTcpIn (v : String) (y : NodeData) :
    nodeTeleFields (nsetTcpIn v y) =
      (y.HttpIn, y.HttpIn3xx, y.HttpIn4xx, y.HttpIn5xx, y.HttpOut, v, y.TcpOut) := rfl

theorem nodeTeleFields_nsetTcpOut (v : String) (y : NodeData) :
    nodeTeleFields (nsetTcpOut v y) =
      (y.HttpIn, y.HttpIn3xx, y.HttpIn4xx, y.HttpIn5xx, y.HttpOut, y.TcpIn, v) := rfl

/-! ### Single-field actions of the telemetry setters -/

theorem nsetHttpIn_HttpIn (v : String) (y : NodeData) :
    (nsetHttpIn v y).HttpIn = v := rfl

theorem nsetHttpIn_HttpIn3xx (v : String) (y : NodeData) :
    (nsetHttpIn v y).HttpIn3xx = y.HttpIn3xx := rfl

theorem nsetHttpIn_HttpIn4xx (v : String) (y : NodeData) :
    (nsetHttpIn v y).HttpIn4xx = y.HttpIn4xx := rfl

theorem nsetHttpIn_HttpIn5xx (v : String) (y : NodeData) :
    (nsetHttpIn v y).HttpIn5xx = y.HttpIn5xx := rfl

theorem nsetHttpIn_HttpOut (v : String) (y : NodeData) :
    (nsetHttpIn v y).HttpOut = y.HttpOut := rfl

theorem nsetHttpIn_TcpIn (v : String) (y : NodeData) :
    (nsetHttpIn v y).TcpIn = y.TcpIn := rfl

theorem nsetHttpIn_TcpOut (v : String) (y : NodeData) :
    (nsetHttpIn v y).TcpOut = y.TcpOut := rfl

theorem nsetHttpIn3xx_HttpIn (v : String) (y : NodeData) :
    (nsetHttpIn3xx v y).HttpIn = y.HttpIn := rfl

theorem nsetHttpIn3xx_HttpIn3xx (v : String) (y : NodeData) :
    (nsetHttpIn3xx v y).HttpIn3xx = v := rfl

theorem nsetHttpIn3xx_HttpIn4xx (v : String) (y : NodeData) :
    (nsetHttpIn3xx v y).HttpIn4xx = y.HttpIn4xx := rfl

theorem nsetHttpIn3xx_HttpIn5xx (v : String) (y : NodeData) :
    (nsetHttpIn3xx v y).HttpIn5xx = y.HttpIn5xx := rfl

theorem nsetHttpIn3xx_HttpOut (v : String) (y : NodeData) :
    (nsetHttpIn3xx v y).HttpOut = y.HttpOut := rfl

theorem nsetHttpIn3xx_TcpIn (v : String) (y : NodeData) :
    (nsetHttpIn3xx v y).TcpIn = y.TcpIn := rfl

theorem nsetHttpIn3xx_TcpOut (v : String) (y : NodeData) :
    (nsetHttpIn3xx v y).TcpOut = y.TcpOut := rfl

theorem nsetHttpIn4xx_HttpIn (v : String) (y : NodeData) :
    (nsetHttpIn4xx v y).HttpIn = y.HttpIn := rfl

theorem nsetHttpIn4xx_HttpIn3xx (v : String) (y : NodeData) :
    (nsetHttpIn4xx v y).HttpIn3xx = y.HttpIn3xx := rfl

theorem nsetHttpIn4xx_HttpIn4xx (v : String) (y : NodeData) :
    (nsetHttpIn4xx v y).HttpIn4xx = v := rfl

theorem nsetHttpIn4xx_HttpIn5xx (v : String) (y : NodeData) :
    (nsetHttpIn4xx v y).HttpIn5xx = y.HttpIn5xx := rfl

theorem nsetHttpIn4xx_HttpOut (v : String) (y : NodeData) :
    (nsetHttpIn4xx v y).HttpOut = y.HttpOut := rfl

theorem nsetHttpIn4xx_TcpIn (v : String) (y : NodeData) :
    (nsetHttpIn4xx v y).TcpIn = y.TcpIn := rfl

theorem nsetHttpIn4xx_TcpOut (v : String) (y : NodeData) :
    (nsetHttpIn4xx v y).TcpOut = y.TcpOut := rfl

theorem nsetHttpIn5xx_HttpIn (v : String) (y : NodeData) :
    (nsetHttpIn5xx v y).HttpIn = y.HttpIn := rfl

theorem nsetHttpIn5xx_HttpIn3xx (v : String) (y : NodeData) :
    (nsetHttpIn5xx v y).HttpIn3xx = y.HttpIn3xx := rfl

theorem nsetHttpIn5xx_HttpIn4xx (v : String) (y : NodeData) :
    (nsetHttpIn5xx v y).HttpIn4xx = y.HttpIn4xx := rfl

theorem nsetHttpIn5xx_HttpIn5xx (v : String) (y : NodeData) :
    (nsetHttpIn5xx v y).HttpIn5xx = v := rfl

theorem nsetHttpIn5xx_HttpOut (v : String) (y : NodeData) :
    (nsetHttpIn5xx v y).HttpOut = y.HttpOut := rfl

theorem nsetHttpIn5xx_TcpIn (v : String) (y : NodeData) :
    (nsetHttpIn5xx v y).TcpIn = y.TcpIn := rfl

theorem nsetHttpIn5xx_TcpOut (v : String) (y : NodeData) :
    (nsetHttpIn5xx v y).TcpOut = y.TcpOut := rfl

theorem nsetHttpOut_HttpIn (v : String) (y : NodeData) :
    (nsetHttpOut v y).HttpIn = y.HttpIn := rfl

theorem nsetHttpOut_HttpIn3xx (v : String) (y : NodeData) :
    (nsetHttpOut v y).HttpIn3xx = y.HttpIn3xx := rfl

theorem nsetHttpOut_HttpIn4xx (v : String) (y : NodeData) :
    (nsetHttpOut v y).HttpIn4xx = y.HttpIn4xx := rfl

theorem nsetHttpOut_HttpIn5xx (v : String) (y : NodeData) :
    (nsetHttpOut v y).HttpIn5xx = y.HttpIn5xx := rfl

theorem nsetHttpOut_HttpOut (v : String) (y : NodeData) :
    (nsetHttpOut v y).HttpOut = v := rfl

theorem nsetHttpOut_TcpIn (v : String) (y : NodeData) :
    (nsetHttpOut v y).TcpIn = y.TcpIn := rfl

theorem nsetHttpOut_TcpOut (v : String) (y : NodeData) :
    (nsetHttpOut v y).TcpOut = y.TcpOut := rfl

theorem nsetTcpIn_HttpIn (v : String) (y : NodeData) :
    (nsetTcpIn v y).HttpIn = y.HttpIn := rfl

theorem nsetTcpIn_HttpIn3xx (v : String) (y : NodeData) :
    (nsetTcpIn v y).HttpIn3xx = y.HttpIn3xx := rfl

theorem nsetTcpIn_HttpIn4xx (v : String) (y : NodeData) :
    (nsetTcpIn v y).HttpIn4xx = y.HttpIn4xx := rfl

theorem nsetTcpIn_HttpIn5xx (v : String) (y : NodeData) :
    (nsetTcpIn v y).HttpIn5xx = y.HttpIn5xx := rfl

theorem nsetTcpIn_HttpOut (v : String) (y : NodeData) :
    (nsetTcpIn v y).HttpOut = y.HttpOut := rfl

theorem nsetTcpIn_TcpIn (v : String) (y : NodeData) :
    (nsetTcpIn v y).TcpIn = v := rfl

theorem nsetTcpIn_TcpOut (v : String) (y : NodeData) :
    (nsetTcpIn v y).TcpOut = y.TcpOut := rfl

theorem nsetTcpOut_HttpIn (v : String) (y : NodeData) :
    (nsetTcpOut v y).HttpIn = y.HttpIn := rfl

theorem nsetTcpOut_HttpIn3xx (v : String) (y : NodeData) :
    (nsetTcpOut v y).HttpIn3xx = y.HttpIn3xx := rfl

theorem nsetTcpOut_HttpIn4xx (v : String) (y : NodeData) :
    (nsetTcpOut v y).HttpIn4xx = y.HttpIn4xx := rfl

theorem nsetTcpOut_HttpIn5xx (v : String) (y : NodeData) :
    (nsetTcpOut v y).HttpIn5xx = y.HttpIn5xx := rfl

theorem nsetTcpOut_HttpOut (v : String) (y : NodeData) :
    (nsetTcpOut v y).HttpOut = y.HttpOut := rfl

theorem nsetTcpOut_TcpIn (v : String) (y : NodeData) :
    (nsetTcpOut v y).TcpIn = y.TcpIn := rfl

theorem nsetTcpOut_TcpOut (v : String) (y : NodeData) :
    (nsetTcpOut v y).TcpOut = v := rfl

theorem esetHttp_HttpPercentReq (v : String) (y : EdgeData) :
    (esetHttp v y).HttpPercentReq = y.HttpPercentReq := rfl

theorem esetHttp_IsUnused (v : String) (y : EdgeData) :
    (esetHttp v y).IsUnused = y.IsUnused := rfl

theorem esetHttp3xx_HttpPercentReq (v : String) (y : EdgeData) :
    (esetHttp3xx v y).HttpPercentReq = y.HttpPercentReq := rfl

theorem esetHttp3xx_IsUnused (v : String) (y : EdgeData) :
    (esetHttp3xx v y).IsUnused = y.IsUnused := rfl

theorem esetHttp4xx_HttpPercentReq (v : String) (y : EdgeData) :
    (esetHttp4xx v y).HttpPercentReq = y.HttpPercentReq := rfl

theorem esetHttp4xx_IsUnused (v : String) (y : EdgeData) :
    (esetHttp4xx v y).IsUnused = y.IsUnused := rfl

theorem esetHttp5xx_HttpPercentReq (v : String) (y : EdgeData) :
    (esetHttp5xx v y).HttpPercentReq = y.HttpPercentReq := rfl

theorem esetHttp5xx_IsUnused (v : String) (y : EdgeData) :
    (esetHttp5xx v y).IsUnused = y.IsUnused := rfl

theorem esetHttpPercentErr_HttpPercentReq (v : String) (y : EdgeData) :
    (esetHttpPercentErr v y).HttpPercentReq = y.HttpPercentReq := rfl

theorem esetHttpPercentErr_IsUnused (v : String) (y : EdgeData) :
    (esetHttpPercentErr v y).IsUnused = y.IsUnused := rfl

theorem esetHttpPercentReq_HttpPercentReq (v : String) (y : EdgeData) :
    (esetHttpPercentReq v y).HttpPercentReq = v := rfl

theorem esetHttpPercentReq_IsUnused (v : String) (y : EdgeData) :
    (esetHttpPercentReq v y).IsUnused = y.IsUnused := rfl

theorem esetResponseTime_HttpPercentReq (v : String) (y : EdgeData) :
    (esetResponseTime v y).HttpPercentReq = y.HttpPercentReq := rfl

theorem esetResponseTime_IsUnused (v : String) (y : EdgeData) :
    (esetResponseTime v y).IsUnused = y.IsUnused := rfl

theorem esetIsMTLS_HttpPercentReq (v : Bool) (y : EdgeData) :
    (esetIsMTLS v y).HttpPercentReq = y.HttpPercentReq := rfl

theorem esetIsMTLS_IsUnused (v : Bool) (y : EdgeData) :
    (esetIsMTLS v y).IsUnused = y.IsUnused := rfl

theorem esetIsUnused_HttpPercentReq (v : Bool) (y : EdgeData) :
    (esetIsUnused v y).HttpPercentReq = y.HttpPercentReq := rfl

theorem esetIsUnused_IsUnused (v : Bool) (y : EdgeData) :
    (esetIsUnused v y).IsUnused = v := rfl

theorem esetTcp_HttpPercentReq (v : String) (y : EdgeData) :
    (esetTcp v y).HttpPercentReq = y.HttpPercentReq := rfl

theorem esetTcp_IsUnused (v : String) (y : EdgeData) :
    (esetTcp v y).IsUnused = y.IsUnused := rfl

/-! ### Field-keyed instances of the combinator projection lemmas -/

theorem applyIf_nodeCoreFields (c : Bool) (f : NodeData → NodeData) (x : NodeData) :
    nodeCoreFields (applyIf c f x) =
      if c then nodeCoreFields (f x) else nodeCoreFields x :=
  applyIf_proj_eq nodeCoreFields c f x

theorem applyOpt_nodeCoreFields {β : Type _} (v : Option β) (f : β → NodeData → NodeData)
    (x : NodeData) :
    nodeCoreFields (applyOpt v f x) =
      match v with
      | some b => nodeCoreFields (f b x)
      | none => nodeCoreFields x :=
  applyOpt_proj_eq nodeCoreFields v f x

theorem applyIf_nodeTeleFields (c : Bool) (f : NodeData → NodeData) (x : NodeData) :
    nodeTeleFields (applyIf c f x) =
      if c then nodeTeleFields (f x) else nodeTeleFields x :=
  applyIf_proj_eq nodeTeleFields c f x

theorem applyOpt_nodeTeleFields {β : Type _} (v : Option β) (f : β → NodeData → NodeData)
    (x : NodeData) :
    nodeTeleFields (applyOpt v f x) =
      match v with
      | some b => nodeTeleFields (f b x)
      | none => nodeTeleFields x :=
  applyOpt_proj_eq nodeTeleFields v f x

theorem applyIf_edgeIdFields (c : Bool) (f : EdgeData → EdgeData) (x : EdgeData) :
    edgeIdFields (applyIf c f x) =
      if c then edgeIdFields (f x) else edgeIdFields x :=
  applyIf_proj_eq edgeIdFields c f x

theorem applyOpt_edgeIdFields {β : Type _} (v : Option β) (f : β → EdgeData → EdgeData)
    (x : EdgeData) :
    edgeIdFields (applyOpt v f x) =
      match v with
      | some b => edgeIdFields (f b x)
      | none => edgeIdFields x :=
  applyOpt_proj_eq edgeIdFields v f x

theorem applyIf_HttpIn (c : Bool) (f : NodeData → NodeData) (x : NodeData) :
    (applyIf c f x).HttpIn = if c then (f x).HttpIn else x.HttpIn :=
  applyIf_proj_eq (fun nd => nd.HttpIn) c f x

theorem applyIf_HttpIn3xx (c : Bool) (f : NodeData → NodeData) (x : NodeData) :
    (applyIf c f x).HttpIn3xx = if c then (f x).HttpIn3xx else x.HttpIn3xx :=
  applyIf_proj_eq (fun nd => nd.HttpIn3xx) c f x

theorem applyIf_HttpIn4xx (c : Bool) (f : NodeData → NodeData) (x : NodeData) :
    (applyIf c f x).HttpIn4xx = if c then (f x).HttpIn4xx else x.HttpIn4xx :=
  applyIf_proj_eq (fun nd => nd.HttpIn4xx) c f x

theorem applyIf_HttpIn5xx (c : Bool) (f : NodeData → NodeData) (x : NodeData) :
    (applyIf c f x).HttpIn5xx = if c then (f x).HttpIn5xx else x.HttpIn5xx :=
  applyIf_proj_eq (fun nd => nd.HttpIn5xx) c f x

theorem applyIf_HttpOut (c : Bool) (f : NodeData → NodeData) (x : NodeData) :
    (applyIf c f x).HttpOut = if c then (f x).HttpOut else x.HttpOut :=
  applyIf_proj_eq (fun nd => nd.HttpOut) c f x

theorem applyIf_TcpIn (c : Bool) (f : NodeData → NodeData) (x : NodeData) :
    (applyIf c f x).TcpIn = if c then (f x).TcpIn else x.TcpIn :=
  applyIf_proj_eq (fun nd => nd.TcpIn) c f x

theorem applyIf_TcpOut (c : Bool) (f : NodeData → NodeData) (x : NodeData) :
    (applyIf c f x).TcpOut = if c then (f x).TcpOut else x.TcpOut :=
  applyIf_proj_eq (fun nd => nd.TcpOut) c f x

theorem applyIfE_HttpPercentReq (c : Bool) (f : EdgeData → EdgeData) (x : EdgeData) :
    (applyIf c f x).HttpPercentReq = if c then (f x).HttpPercentReq else x.HttpPercentReq :=
  applyIf_proj_eq (fun ed => ed.HttpPercentReq) c f x

theorem applyOptE_HttpPercentReq {β : Type _} (v : Option β) (f : β → EdgeData → EdgeData)
    (x : EdgeData) :
    (applyOpt v f x).HttpPercentReq =
      match v with
      | some b => (f b x).HttpPercentReq
      | none => x.HttpPercentReq :=
  applyOpt_proj_eq (fun ed => ed.HttpPercentReq) v f x

theorem applyIfE_IsUnused (c : Bool) (f : EdgeData → EdgeData) (x : EdgeData) :
    (applyIf c f x).IsUnused = if c then (f x).IsUnused else x.IsUnused :=
  applyIf_proj_eq (fun ed => ed.IsUnused) c f x

theorem applyOptE_IsUnused {β : Type _} (v : Option β) (f : β → EdgeData → EdgeData)
    (x : EdgeData) :
    (applyOpt v f x).IsUnused =
      match v with
      | some b => (f b x).IsUnused
      | none => x.IsUnused :=
  applyOpt_proj_eq (fun ed => ed.IsUnused) v f x

/-- Edge telemetry decoration never touches the identity fields of the
edge record. -/
theorem addEdgeTelemetry_frame {ed : EdgeData} {e : Edge} {ed' : EdgeData}
    (h : addEdgeTelemetry ed e = some ed') :
    ed'.Id = ed.Id ∧ ed'.Source = ed.Source ∧ ed'.Target = ed.Target := by
  suffices hb : edgeIdFields ed' = edgeIdFields ed by
    simpa [edgeIdFields, Prod.ext_iff] using hb
  unfold addEdgeTelemetry at h
  rw [Option.bind_eq_some] at h
  obtain ⟨http, hhttp, h⟩ := h
  rw [Option.bind_eq_some] at h
  obtain ⟨ed1, hed1, h⟩ := h
  rw [Option.bind_eq_some] at h
  obtain ⟨v, hv, h⟩ := h
  rw [Option.bind_eq_some] at h
  obtain ⟨tcp, htcp, h⟩ := h
  rw [Option.some.injEq] at h
  subst h
  have hframe1 : edgeIdFields ed1 = edgeIdFields ed := by
    split at hed1
    · rw [Option.bind_eq_some] at hed1
      obtain ⟨h3, _, hed1⟩ := hed1
      rw [Option.bind_eq_some] at hed1
      obtain ⟨h4, _, hed1⟩ := hed1
      rw [Option.bind_eq_some] at hed1
      obtain ⟨h5, _, hed1⟩ := hed1
      rw [Option.bind_eq_some] at hed1
      obtain ⟨rt, _, hed1⟩ := hed1
      rw [Option.bind_eq_some] at hed1
      obtain ⟨so, _, hed1⟩ := hed1
      rw [Option.some.injEq] at hed1
      subst hed1
      simp only [applyIf_proj, applyOpt_proj, edgeIdFields_esetHttp3xx,
        edgeIdFields_esetHttp4xx, edgeIdFields_esetHttp5xx,
        edgeIdFields_esetHttpPercentErr, edgeIdFields_esetHttpPercentReq,
        edgeIdFields_esetResponseTime, edgeIdFields_esetHttp, implies_true]
    · rw [Option.bind_eq_some] at hed1
      obtain ⟨u, hu, hed1⟩ := hed1
      rw [Option.some.injEq] at hed1
      subst hed1
      simp only [applyOpt_proj, edgeIdFields_esetIsUnused, implies_true]
  simp only [applyIf_proj, applyOpt_proj, edgeIdFields_esetTcp,
    edgeIdFields_esetIsMTLS, implies_true]
  exact hframe1

/-- An emitted edge record carries the hashed source id, the hashed
destination id, and an edge id hashed from the two and the protocol. -/
theorem buildEdge_char {n : Node} {e : Edge} {ed : EdgeData}
    (h : buildEdge n e = some ed) :
    ∃ p, protocolOf e = some p ∧
      ed.Id = edgeHash (nodeHash n.ID) (nodeHash e.Dest.ID) p ∧
      ed.Source = nodeHash n.ID ∧ ed.Target = nodeHash e.Dest.ID := by
  unfold buildEdge at h
  rw [Option.bind_eq_some] at h
  obtain ⟨p, hp, h⟩ := h
  have hf := addEdgeTelemetry_frame h
  exact ⟨p, hp, by rw [hf.1], by rw [hf.2.1], by rw [hf.2.2]⟩

/-! ### Claim C10 -/

/-- C10: for two edges of the same source node whose destinations carry
the same logical id and whose protocol labels agree (in particular when
both are absent and default to the empty string), the two emitted
output edge records carry the identical id — the edge id is a pure
function of hashed source id, hashed destination id, and protocol, so
output edge ids are not necessarily unique. -/
theorem c10_duplicate_edge_ids {n : Node} {e1 e2 : Edge} {p : String} {d1 d2 : EdgeData}
    (h1 : buildEdge n e1 = some d1) (h2 : buildEdge n e2 = some d2)
    (hdest : e1.Dest.ID = e2.Dest.ID)
    (hp1 : protocolOf e1 = some p) (hp2 : protocolOf e2 = some p) :
    d1.Id = d2.Id := by
  obtain ⟨q1, hq1, hid1, _, _⟩ := buildEdge_char h1
  obtain ⟨q2, hq2, hid2, _, _⟩ := buildEdge_char h2
  rw [hq1] at hp1
  rw [hq2] at hp2
  injection hp1 with hp1
  injection hp2 with hp2
  rw [hid1, hid2, hdest, hp1, hp2]

def c10Src : NodeCore :=
  { ID := "a", NodeType := "workload", Namespace := "ns", Workload := "w",
    App := "x", Version := "", Service := "", Metadata := [] }

def c10Dst : NodeCore :=
  { ID := "b", NodeType := "service", Namespace := "ns", Workload := "",
    App := "", Version := "", Service := "s", Metadata := [] }

def c10E1 : Edge := { Source := c10Src, Dest := c10Dst, Metadata := [] }

def c10E2 : Edge :=
  { Source := c10Src, Dest := c10Dst, Metadata := [("isMTLS", .bool true)] }

def c10Node : Node := { toNodeCore := c10Src, Edges := [c10E1, c10E2] }

def c10D1 : EdgeData :=
  (buildEdge c10Node c10E1).getD { Id := "", Source := "", Target := "" }

def c10D2 : EdgeData :=
  (buildEdge c10Node c10E2).getD { Id := "", Source := "", Target := "" }

/-- Witness for C10: two distinct concrete edges between the same nodes,
both without a protocol label, really receive the same output id. -/
theorem c10_witness :
    c10E1 ≠ c10E2 ∧ buildEdge c10Node c10E1 = some c10D1 ∧
      buildEdge c10Node c10E2 = some c10D2 ∧ c10D1.Id = c10D2.Id :=
  ⟨by decide, by decide, by decide,
    @c10_duplicate_edge_ids c10Node c10E1 c10E2 "" c10D1 c10D2
      (by decide) (by decide) (by decide) (by decide) (by decide)⟩

/-! ### Claim C4 -/

def c4Node : Node :=
  { ID := "a", NodeType := "workload", Namespace := "ns1", Workload := "w",
    App := "x", Version := "", Service := "",
    Metadata := [("httpIn", .str "high")], Edges := [] }

def c4Opts : VendorOptions :=
  { GraphType := "versionedApp", GroupBy := "", Duration := 60, QueryTime := 100 }

/-- C4: the claim states that a metadata value of unexpected dynamic
type degrades to an absent output field with the transformation
completing; the code instead panics on its unchecked cast.  At the
failing input — a one-node graph whose `httpIn` entry holds a string —
the transformation aborts (`none`) rather than returning a document.
The spec's §7 itself calls the crash-on-mismatch behaviour a defect to
correct, so the claim is right about the intent and the code is wrong. -/
theorem c4_malformed_metadata_panics :
    NewConfig [("a", c4Node)] c4Opts = none := by decide

/-! ### The flag phase preserves both node-field bundles -/

theorem applyOpt_nsetIsDead_core (v : Option (Bool)) (x : NodeData) :
    nodeCoreFields (applyOpt v nsetIsDead x) = nodeCoreFields x := by
  cases v <;> rfl

theorem applyOpt_nsetIsDead_tele (v : Option (Bool)) (x : NodeData) :
    nodeTeleFields (applyOpt v nsetIsDead x) = nodeTeleFields x := by
  cases v <;> rfl

theorem applyOpt_nsetIsRoot_core (v : Option (Bool)) (x : NodeData) :
    nodeCoreFields (applyOpt v nsetIsRoot x) = nodeCoreFields x := by
  cases v <;> rfl

theorem applyOpt_nsetIsRoot_tele (v : Option (Bool)) (x : NodeData) :
    nodeTeleFields (applyOpt v nsetIsRoot x) = nodeTeleFields x := by
  cases v <;> rfl

theorem applyOpt_nsetIsUnused_core (v : Option (Bool)) (x : NodeData) :
    nodeCoreFields (applyOpt v nsetIsUnused x) = nodeCoreFields x := by
  cases v <;> rfl

theorem applyOpt_nsetIsUnused_tele (v : Option (Bool)) (x : NodeData) :
    nodeTeleFields (applyOpt v nsetIsUnused x) = nodeTeleFields x := by
  cases v <;> rfl

theorem applyOpt_nsetIsInaccessible_core (v : Option (Bool)) (x : NodeData) :
    nodeCoreFields (applyOpt v nsetIsInaccessible x) = nodeCoreFields x := by
  cases v <;> rfl

theorem applyOpt_nsetIsInaccessible_tele (v : Option (Bool)) (x : NodeData) :
    nodeTeleFields (applyOpt v nsetIsInaccessible x) = nodeTeleFields x := by
  cases v <;> rfl

theorem applyOpt_nsetHasCB_core (v : Option (Bool)) (x : NodeData) :
    nodeCoreFields (applyOpt v nsetHasCB x) = nodeCoreFields x := by
  cases v <;> rfl

theorem applyOpt_nsetHasCB_tele (v : Option (Bool)) (x : NodeData) :
    nodeTeleFields (applyOpt v nsetHasCB x) = nodeTeleFields x := by
  cases v <;> rfl

theorem applyOpt_nsetHasVS_core (v : Option (Bool)) (x : NodeData) :
    nodeCoreFields (applyOpt v nsetHasVS x) = nodeCoreFields x := by
  cases v <;> rfl

theorem applyOpt_nsetHasVS_tele (v : Option (Bool)) (x : NodeData) :
    nodeTeleFields (applyOpt v nsetHasVS x) = nodeTeleFields x := by
  cases v <;> rfl

theorem applyOpt_nsetHasMissingSC_core (v : Option (Bool)) (x : NodeData) :
    nodeCoreFields (applyOpt v nsetHasMissingSC x) = nodeCoreFields x := by
  cases v <;> rfl

theorem applyOpt_nsetHasMissingSC_tele (v : Option (Bool)) (x : NodeData) :
    nodeTeleFields (applyOpt v nsetHasMissingSC x) = nodeTeleFields x := by
  cases v <;> rfl

theorem applyOpt_nsetIsMisconfigured_core (v : Option (String)) (x : NodeData) :
    nodeCoreFields (applyOpt v nsetIsMisconfigured x) = nodeCoreFields x := by
  cases v <;> rfl

theorem applyOpt_nsetIsMisconfigured_tele (v : Option (String)) (x : NodeData) :
    nodeTeleFields (applyOpt v nsetIsMisconfigured x) = nodeTeleFields x := by
  cases v <;> rfl

theorem applyOpt_nsetIsOutside_core (v : Option (Bool)) (x : NodeData) :
    nodeCoreFields (applyOpt v nsetIsOutside x) = nodeCoreFields x := by
  cases v <;> rfl

theorem applyOpt_nsetIsOutside_tele (v : Option (Bool)) (x : NodeData) :
    nodeTeleFields (applyOpt v nsetIsOutside x) = nodeTeleFields x := by
  cases v <;> rfl

theorem applyOpt_nsetDestServices_core (v : Option (List (String × Bool))) (x : NodeData) :
    nodeCoreFields (applyOpt v nsetDestServices x) = nodeCoreFields x := by
  cases v <;> rfl

theorem applyOpt_nsetDestServices_tele (v : Option (List (String × Bool))) (x : NodeData) :
    nodeTeleFields (applyOpt v nsetDestServices x) = nodeTeleFields x := by
  cases v <;> rfl

theorem applyOpt_nsetIsServiceEntry_core (v : Option (String)) (x : NodeData) :
    nodeCoreFields (applyOpt v nsetIsServiceEntry x) = nodeCoreFields x := by
  cases v <;> rfl

theorem applyOpt_nsetIsServiceEntry_tele (v : Option (String)) (x : NodeData) :
    nodeTeleFields (applyOpt v nsetIsServiceEntry x) = nodeTeleFields x := by
  cases v <;> rfl

theorem addNodeTelemetry_core {md : Metadata} {nd0 nd' : NodeData}
    (h : addNodeTelemetry md nd0 = some nd') :
    nodeCoreFields nd' = nodeCoreFields nd0 := by
  unfold addNodeTelemetry at h
  rw [Option.bind_eq_some] at h
  obtain ⟨httpIn, hIn, h⟩ := h
  rw [Option.bind_eq_some] at h
  obtain ⟨nd1, hnd1, h⟩ := h
  rw [Option.bind_eq_some] at h
  obtain ⟨httpOut, hOut, h⟩ := h
  rw [Option.bind_eq_some] at h
  obtain ⟨tcpIn, hTIn, h⟩ := h
  rw [Option.bind_eq_some] at h
  obtain ⟨tcpOut, hTOut, h⟩ := h
  rw [Option.some.injEq] at h
  subst h
  have hf1 : nodeCoreFields nd1 = nodeCoreFields nd0 := by
    split at hnd1
    · rw [Option.bind_eq_some] at hnd1
      obtain ⟨h3, _, hnd1⟩ := hnd1
      rw [Option.bind_eq_some] at hnd1
      obtain ⟨h4, _, hnd1⟩ := hnd1
      rw [Option.bind_eq_some] at hnd1
      obtain ⟨h5, _, hnd1⟩ := hnd1
      rw [Option.some.injEq] at hnd1
      subst hnd1
      simp only [applyIf_nodeCoreFields, nodeCoreFields_nsetHttpIn3xx,
        nodeCoreFields_nsetHttpIn4xx, nodeCoreFields_nsetHttpIn5xx,
        nodeCoreFields_nsetHttpIn, ite_self]
    · rw [Option.some.injEq] at hnd1
      subst hnd1
      rfl
  simp only [applyIf_nodeCoreFields, nodeCoreFields_nsetHttpOut,
    nodeCoreFields_nsetTcpIn, nodeCoreFields_nsetTcpOut, ite_self]
  exact hf1

theorem addNodeTelemetry_tele {md : Metadata} {nd0 nd' : NodeData}
    {hIn h3 h4 h5 hOut tIn tOut : Flt}
    (h : addNodeTelemetry md nd0 = some nd')
    (eIn : getRate md "httpIn" = some hIn)
    (e3 : getRate md "httpIn3xx" = some h3)
    (e4 : getRate md "httpIn4xx" = some h4)
    (e5 : getRate md "httpIn5xx" = some h5)
    (eOut : getRate md "httpOut" = some hOut)
    (eTIn : getRate md "tcpIn" = some tIn)
    (eTOut : getRate md "tcpOut" = some tOut) :
    nd'.HttpIn = (if hIn.pos then formatFixed 2 hIn else nd0.HttpIn) ∧
    nd'.HttpIn3xx = (if hIn.pos && h3.pos then formatFixed 2 h3 else nd0.HttpIn3xx) ∧
    nd'.HttpIn4xx = (if hIn.pos && h4.pos then formatFixed 2 h4 else nd0.HttpIn4xx) ∧
    nd'.HttpIn5xx = (if hIn.pos && h5.pos then formatFixed 2 h5 else nd0.HttpIn5xx) ∧
    nd'.HttpOut = (if hOut.pos then formatFixed 2 hOut else nd0.HttpOut) ∧
    nd'.TcpIn = (if tIn.pos then formatFixed 2 tIn else nd0.TcpIn) ∧
    nd'.TcpOut = (if tOut.pos then formatFixed 2 tOut else nd0.TcpOut) := by
  unfold addNodeTelemetry at h
  rw [eIn, Option.some_bind, Option.bind_eq_some] at h
  obtain ⟨nd1, hnd1, h⟩ := h
  rw [eOut, Option.some_bind, eTIn, Option.some_bind, eTOut, Option.some_bind,
    Option.some.injEq] at h
  subst h
  have h1 : nd1.HttpIn = (if hIn.pos then formatFixed 2 hIn else nd0.HttpIn) ∧
      nd1.HttpIn3xx = (if hIn.pos && h3.pos then formatFixed 2 h3 else nd0.HttpIn3xx) ∧
      nd1.HttpIn4xx = (if hIn.pos && h4.pos then formatFixed 2 h4 else nd0.HttpIn4xx) ∧
      nd1.HttpIn5xx = (if hIn.pos && h5.pos then formatFixed 2 h5 else nd0.HttpIn5xx) ∧
      nd1.TcpIn = nd0.TcpIn ∧ nd1.TcpOut = nd0.TcpOut ∧ nd1.HttpOut = nd0.HttpOut := by
    by_cases hp : hIn.pos
    · rw [if_pos hp] at hnd1
      rw [e3, Option.some_bind, e4, Option.some_bind, e5, Option.some_bind,
        Option.some.injEq] at hnd1
      subst hnd1
      rw [hp]
      simp only [Bool.true_and, if_true]
      refine ⟨?_, ?_, ?_, ?_, ?_, ?_, ?_⟩ <;>
        simp only [applyIf_HttpIn, applyIf_HttpIn3xx, applyIf_HttpIn4xx,
          applyIf_HttpIn5xx, applyIf_HttpOut, applyIf_TcpIn, applyIf_TcpOut,
          nsetHttpIn_HttpIn, nsetHttpIn_HttpIn3xx, nsetHttpIn_HttpIn4xx,
          nsetHttpIn_HttpIn5xx, nsetHttpIn_HttpOut, nsetHttpIn_TcpIn, nsetHttpIn_TcpOut,
          nsetHttpIn3xx_HttpIn, nsetHttpIn3xx_HttpIn3xx, nsetHttpIn3xx_HttpIn4xx,
          nsetHttpIn3xx_HttpIn5xx, nsetHttpIn3xx_HttpOut, nsetHttpIn3xx_TcpIn,
          nsetHttpIn3xx_TcpOut,
          nsetHttpIn4xx_HttpIn, nsetHttpIn4xx_HttpIn3xx, nsetHttpIn4xx_HttpIn4xx,
          nsetHttpIn4xx_HttpIn5xx, nsetHttpIn4xx_HttpOut, nsetHttpIn4xx_TcpIn,
          nsetHttpIn4xx_TcpOut,
          nsetHttpIn5xx_HttpIn, nsetHttpIn5xx_HttpIn3xx, nsetHttpIn5xx_HttpIn4xx,
          nsetHttpIn5xx_HttpIn5xx, nsetHttpIn5xx_HttpOut, nsetHttpIn5xx_TcpIn,
          nsetHttpIn5xx_TcpOut, ite_self]
    · rw [if_neg hp] at hnd1
      rw [Option.some.injEq] at hnd1
      subst hnd1
      have hp' : hIn.pos = false := by
        cases hq : hIn.pos
        · rfl
        · exact absurd hq hp
      simp [hp']
  obtain ⟨q1, q2, q3, q4, q5, q6, q7⟩ := h1
  refine ⟨?_, ?_, ?_, ?_, ?_, ?_, ?_⟩ <;>
    simp only [applyIf_HttpIn, applyIf_HttpIn3xx, applyIf_HttpIn4xx,
      applyIf_HttpIn5xx, applyIf_HttpOut, applyIf_TcpIn, applyIf_TcpOut,
      nsetHttpOut_HttpIn, nsetHttpOut_HttpIn3xx, nsetHttpOut_HttpIn4xx,
      nsetHttpOut_HttpIn5xx, nsetHttpOut_HttpOut, nsetHttpOut_TcpIn, nsetHttpOut_TcpOut,
      nsetTcpIn_HttpIn, nsetTcpIn_HttpIn3xx, nsetTcpIn_HttpIn4xx,
      nsetTcpIn_HttpIn5xx, nsetTcpIn_HttpOut, nsetTcpIn_TcpIn, nsetTcpIn_TcpOut,
      nsetTcpOut_HttpIn, nsetTcpOut_HttpIn3xx, nsetTcpOut_HttpIn4xx,
      nsetTcpOut_HttpIn5xx, nsetTcpOut_HttpOut, nsetTcpOut_TcpIn, nsetTcpOut_TcpOut,
      ite_self, q1, q2, q3, q4, q5, q6, q7]

/-- An emitted node record: the telemetry fields come from
`addNodeTelemetry` on the freshly-initialised record, and the identity
and grouping fields are exactly the node's own, with no parent and no
group marker. -/
theorem buildNode_char {id : String} {n : Node} {nd : NodeData}
    (h : buildNode id n = some nd) :
    ∃ ndT, addNodeTelemetry n.Metadata
        { Id := nodeHash id, NodeType := n.NodeType, Namespace := n.Namespace,
          Workload := n.Workload, App := n.App, Version := n.Version,
          Service := n.Service } = some ndT ∧
      nodeTeleFields nd = nodeTeleFields ndT ∧
      nodeCoreFields nd = (nodeHash id, "", n.NodeType, n.Namespace, n.Workload,
        n.App, n.Version, n.Service, "") := by
  unfold buildNode at h
  rw [Option.bind_eq_some] at h
  obtain ⟨ndT, hT, h⟩ := h
  rw [Option.bind_eq_some] at h
  obtain ⟨v1, _, h⟩ := h
  rw [Option.bind_eq_some] at h
  obtain ⟨v2, _, h⟩ := h
  rw [Option.bind_eq_some] at h
  obtain ⟨v3, _, h⟩ := h
  rw [Option.bind_eq_some] at h
  obtain ⟨v4, _, h⟩ := h
  rw [Option.bind_eq_some] at h
  obtain ⟨v5, _, h⟩ := h
  rw [Option.bind_eq_some] at h
  obtain ⟨v6, _, h⟩ := h
  rw [Option.bind_eq_some] at h
  obtain ⟨v7, _, h⟩ := h
  rw [Option.bind_eq_some] at h
  obtain ⟨v8, _, h⟩ := h
  rw [Option.bind_eq_some] at h
  obtain ⟨v9, _, h⟩ := h
  rw [Option.bind_eq_some] at h
  obtain ⟨v10, _, h⟩ := h
  rw [Option.bind_eq_some] at h
  obtain ⟨v11, _, h⟩ := h
  rw [Option.some.injEq] at h
  subst h
  refine ⟨ndT, hT, ?_, ?_⟩
  · simp only [applyOpt_nsetIsDead_tele, applyOpt_nsetIsRoot_tele,
      applyOpt_nsetIsUnused_tele, applyOpt_nsetIsInaccessible_tele,
      applyOpt_nsetHasCB_tele, applyOpt_nsetHasVS_tele,
      applyOpt_nsetHasMissingSC_tele, applyOpt_nsetIsMisconfigured_tele,
      applyOpt_nsetIsOutside_tele, applyOpt_nsetDestServices_tele,
      applyOpt_nsetIsServiceEntry_tele]
  · simp only [applyOpt_nsetIsDead_core, applyOpt_nsetIsRoot_core,
      applyOpt_nsetIsUnused_core, applyOpt_nsetIsInaccessible_core,
      applyOpt_nsetHasCB_core, applyOpt_nsetHasVS_core,
      applyOpt_nsetHasMissingSC_core, applyOpt_nsetIsMisconfigured_core,
      applyOpt_nsetIsOutside_core, applyOpt_nsetDestServices_core,
      applyOpt_nsetIsServiceEntry_core]
    rw [addNodeTelemetry_core hT]
    rfl

theorem formatFixed_ne_empty (prec : Nat) (hp : prec ≠ 0) (f : Flt) :
    formatFixed prec f ≠ "" := by
  intro he
  have hlen := congrArg String.length he
  simp only [formatFixed] at hlen
  rw [if_neg hp] at hlen
  simp [String.length_append] at hlen
  exact absurd hlen.1.2 (by decide)

/-- C7 (amended): for every node record emitted for a graph node, the
`httpIn`, `httpOut`, `tcpIn` and `tcpOut` fields are present (non-empty,
holding the two-decimal fixed-point rendering of the rate) if and only
if the corresponding metadata rate is strictly positive, an absent key
reading as zero; the per-status-class fields `httpIn3XX`, `httpIn4XX`
and `httpIn5XX` are present if and only if both the aggregate `httpIn`
rate and their own rate are strictly positive — the code only reads the
per-status rates inside the `httpIn > 0` branch, which is the one
correction the counterexample forces on the claim. -/
theorem c7_rate_fields {id : String} {n : Node} {nd : NodeData}
    {hIn h3 h4 h5 hOut tIn tOut : Flt}
    (h : buildNode id n = some nd)
    (eIn : getRate n.Metadata "httpIn" = some hIn)
    (e3 : getRate n.Metadata "httpIn3xx" = some h3)
    (e4 : getRate n.Metadata "httpIn4xx" = some h4)
    (e5 : getRate n.Metadata "httpIn5xx" = some h5)
    (eOut : getRate n.Metadata "httpOut" = some hOut)
    (eTIn : getRate n.Metadata "tcpIn" = some tIn)
    (eTOut : getRate n.Metadata "tcpOut" = some tOut) :
    (nd.HttpIn = (if hIn.pos then formatFixed 2 hIn else "") ∧
      nd.HttpIn3xx = (if hIn.pos && h3.pos then formatFixed 2 h3 else "") ∧
      nd.HttpIn4xx = (if hIn.pos && h4.pos then formatFixed 2 h4 else "") ∧
      nd.HttpIn5xx = (if hIn.pos && h5.pos then formatFixed 2 h5 else "") ∧
      nd.HttpOut = (if hOut.pos then formatFixed 2 hOut else "") ∧
      nd.TcpIn = (if tIn.pos then formatFixed 2 tIn else "") ∧
      nd.TcpOut = (if tOut.pos then formatFixed 2 tOut else "")) ∧
    ((nd.HttpIn ≠ "" ↔ hIn.pos = true) ∧
      (nd.HttpIn3xx ≠ "" ↔ (hIn.pos && h3.pos) = true) ∧
      (nd.HttpIn4xx ≠ "" ↔ (hIn.pos && h4.pos) = true) ∧
      (nd.HttpIn5xx ≠ "" ↔ (hIn.pos && h5.pos) = true) ∧
      (nd.HttpOut ≠ "" ↔ hOut.pos = true) ∧
      (nd.TcpIn ≠ "" ↔ tIn.pos = true) ∧
      (nd.TcpOut ≠ "" ↔ tOut.pos = true)) := by
  obtain ⟨ndT, hT, htele, hcore⟩ := buildNode_char h
  obtain ⟨q1, q2, q3, q4, q5, q6, q7⟩ :=
    addNodeTelemetry_tele hT eIn e3 e4 e5 eOut eTIn eTOut
  simp only [nodeTeleFields, Prod.mk.injEq] at htele
  obtain ⟨w1, w2, w3, w4, w5, w6, w7⟩ := htele
  have r1 : nd.HttpIn = (if hIn.pos then formatFixed 2 hIn else "") := by rw [w1, q1]
  have r2 : nd.HttpIn3xx = (if hIn.pos && h3.pos then formatFixed 2 h3 else "") := by rw [w2, q2]
  have r3 : nd.HttpIn4xx = (if hIn.pos && h4.pos then formatFixed 2 h4 else "") := by rw [w3, q3]
  have r4 : nd.HttpIn5xx = (if hIn.pos && h5.pos then formatFixed 2 h5 else "") := by rw [w4, q4]
  have r5 : nd.HttpOut = (if hOut.pos then formatFixed 2 hOut else "") := by rw [w5, q5]
  have r6 : nd.TcpIn = (if tIn.pos then formatFixed 2 tIn else "") := by rw [w6, q6]
  have r7 : nd.TcpOut = (if tOut.pos then formatFixed 2 tOut else "") := by rw [w7, q7]
  refine ⟨⟨r1, r2, r3, r4, r5, r6, r7⟩, ?_, ?_, ?_, ?_, ?_, ?_, ?_⟩ <;>
    first
    | (rw [r1]; split <;>
        simp_all [formatFixed_ne_empty 2 (by decide)])
    | (rw [r2]; split <;>
        simp_all [formatFixed_ne_empty 2 (by decide)])
    | (rw [r3]; split <;>
        simp_all [formatFixed_ne_empty 2 (by decide)])
    | (rw [r4]; split <;>
        simp_all [formatFixed_ne_empty 2 (by decide)])
    | (rw [r5]; split <;>
        simp_all [formatFixed_ne_empty 2 (by decide)])
    | (rw [r6]; split <;>
        simp_all [formatFixed_ne_empty 2 (by decide)])
    | (rw [r7]; split <;>
        simp_all [formatFixed_ne_empty 2 (by decide)])


def c7Node : Node :=
  { ID := "a", NodeType := "workload", Namespace := "ns1", Workload := "w",
    App := "x", Version := "", Service := "",
    Metadata := [("httpIn3xx", .num ⟨5, 0⟩)], Edges := [] }

/-- C7 counterexample: a node whose `httpIn3xx` metadata rate is `5.0`
(strictly positive) while `httpIn` is absent produces a record with the
`httpIn3XX` field omitted, refuting "each rate field is present iff the
corresponding metadata value is strictly greater than zero". -/
theorem c7_counterexample :
    getRate c7Node.Metadata "httpIn3xx" = some ⟨5, 0⟩ ∧ Flt.pos ⟨5, 0⟩ = true ∧
      (buildNode "a" c7Node).map NodeData.HttpIn3xx = some "" := by decide

def c7wNode : Node :=
  { ID := "a", NodeType := "workload", Namespace := "ns1", Workload := "w",
    App := "x", Version := "", Service := "",
    Metadata := [("httpIn", .num ⟨3, 1⟩), ("httpIn4xx", .num ⟨1, 1⟩),
      ("tcpOut", .num ⟨2, 0⟩)], Edges := [] }

def c7wOut : NodeData := (buildNode "a" c7wNode).getD default

/-- Witness for C7: the amended theorem applied to a concrete node with
`httpIn = 1.5`, `httpIn4xx = 0.5` and `tcpOut = 2.0`. -/
theorem c7_witness : c7wOut.HttpIn ≠ "" ↔ Flt.pos ⟨3, 1⟩ = true :=
  (@c7_rate_fields "a" c7wNode c7wOut ⟨3, 1⟩ ⟨0, 0⟩ ⟨1, 1⟩ ⟨0, 0⟩ ⟨0, 0⟩ ⟨0, 0⟩ ⟨2, 0⟩
    (by decide) (by decide) (by decide) (by decide) (by decide) (by decide)
    (by decide) (by decide)).2.1

/-! ### Collapse lemmas for the edge telemetry chain -/

theorem applyOpt_esetIsMTLS_IsUnused (v : Option Bool) (x : EdgeData) :
    (applyOpt v esetIsMTLS x).IsUnused = x.IsUnused := by
  cases v <;> rfl

theorem applyOpt_esetIsMTLS_HttpPercentReq (v : Option Bool) (x : EdgeData) :
    (applyOpt v esetIsMTLS x).HttpPercentReq = x.HttpPercentReq := by
  cases v <;> rfl

theorem applyOpt_esetIsUnused_IsUnused (v : Option Bool) (x : EdgeData) :
    (applyOpt v esetIsUnused x).IsUnused = v.getD x.IsUnused := by
  cases v <;> rfl

theorem applyOpt_esetIsUnused_HttpPercentReq (v : Option Bool) (x : EdgeData) :
    (applyOpt v esetIsUnused x).HttpPercentReq = x.HttpPercentReq := by
  cases v <;> rfl

theorem applyOpt_responseTime_IsUnused (v : Option Flt) (x : EdgeData) :
    (applyOpt v (fun responseTime => esetResponseTime (formatFixed 0 responseTime)) x).IsUnused
      = x.IsUnused := by
  cases v <;> rfl

theorem applyOpt_responseTime_HttpPercentReq (v : Option Flt) (x : EdgeData) :
    (applyOpt v (fun responseTime => esetResponseTime (formatFixed 0 responseTime))
      x).HttpPercentReq = x.HttpPercentReq := by
  cases v <;> rfl

theorem Flt.num_withDen (n : Int) (d : Nat) : (Flt.withDen n d).num = n := rfl

theorem Flt.den_withDen (n : Int) (d : Nat) (hd : 1 ≤ d) : (Flt.withDen n d).den = d := by
  unfold Flt.withDen Flt.den
  show d - 1 + 1 = d
  omega

/-- An edge carrying exactly its source's outbound rate computes a
percentage of exactly 100, which fails the strict `< 100` guard. -/
theorem percentReqLt100_self {h : Flt} (hp : h.pos = true) :
    percentReqLt100 h h = false := by
  have hn : 0 < h.num := by simpa [Flt.pos] using hp
  have habs : (h.num.natAbs : Int) = h.num := Int.natAbs_of_nonneg (le_of_lt hn)
  have hden1 : 1 ≤ h.den := Nat.succ_le_succ (Nat.zero_le _)
  have h1 : 1 ≤ h.den * h.num.natAbs :=
    Nat.one_le_iff_ne_zero.mpr (Nat.mul_ne_zero (by omega) (by omega))
  have e1 : Flt.div h h = Flt.withDen (h.num * (h.den : Int)) (h.den * h.num.natAbs) := by
    unfold Flt.div
    rw [if_pos (le_of_lt hn)]
  have ed1 : (Flt.div h h).den = h.den * h.num.natAbs := by
    rw [e1, Flt.den_withDen _ _ h1]
  have en1 : (Flt.div h h).num = h.num * (h.den : Int) := by
    rw [e1, Flt.num_withDen]
  have e2 : Flt.mul (Flt.div h h) Flt.hundred =
      Flt.withDen ((Flt.div h h).num * 100) ((Flt.div h h).den * 1) := rfl
  have h2 : 1 ≤ (Flt.div h h).den * 1 := by
    rw [ed1]
    omega
  have ed2 : (Flt.mul (Flt.div h h) Flt.hundred).den = h.den * h.num.natAbs := by
    rw [e2, Flt.den_withDen _ _ h2, ed1, Nat.mul_one]
  have en2 : (Flt.mul (Flt.div h h) Flt.hundred).num = h.num * (h.den : Int) * 100 := by
    rw [e2, Flt.num_withDen, en1]
  unfold percentReqLt100
  rw [if_neg (by omega)]
  unfold Flt.blt
  rw [en2, ed2]
  have hh1 : (Flt.hundred.den : Int) = 1 := rfl
  have hh2 : Flt.hundred.num = 100 := rfl
  rw [hh1, hh2]
  simp only [decide_eq_false_iff_not, not_lt]
  push_cast [habs]
  exact le_of_eq (by ring)

/-- How the two branch-dependent edge fields are produced: a positive
http rate fills `httpPercentReq` under the guarded `< 100` comparison
and never touches `isUnused`; a non-positive rate copies the source
node's `isUnused` flag (when present) and never touches
`httpPercentReq`. -/
theorem addEdgeTelemetry_branch {ed0 : EdgeData} {e : Edge} {ed' : EdgeData} {http : Flt}
    (h : addEdgeTelemetry ed0 e = some ed')
    (hhttp : getRate e.Metadata "http" = some http) :
    (http.pos = true → ∃ srcOut, getRate e.Source.Metadata "httpOut" = some srcOut ∧
      ed'.HttpPercentReq = (if percentReqLt100 http srcOut then
        formatFixed 1 (Flt.mul (Flt.div http srcOut) Flt.hundred) else ed0.HttpPercentReq) ∧
      ed'.IsUnused = ed0.IsUnused) ∧
    (http.pos = false → ∃ u, metaBool e.Source.Metadata "isUnused" = some u ∧
      ed'.IsUnused = u.getD ed0.IsUnused ∧ ed'.HttpPercentReq = ed0.HttpPercentReq) := by
  unfold addEdgeTelemetry at h
  rw [hhttp, Option.some_bind, Option.bind_eq_some] at h
  obtain ⟨ed1, hed1, h⟩ := h
  rw [Option.bind_eq_some] at h
  obtain ⟨v, hv, h⟩ := h
  rw [Option.bind_eq_some] at h
  obtain ⟨tcp, htcp, h⟩ := h
  rw [Option.some.injEq] at h
  subst h
  constructor
  · intro hp
    rw [if_pos hp] at hed1
    rw [Option.bind_eq_some] at hed1
    obtain ⟨h3, _, hed1⟩ := hed1
    rw [Option.bind_eq_some] at hed1
    obtain ⟨h4, _, hed1⟩ := hed1
    rw [Option.bind_eq_some] at hed1
    obtain ⟨h5, _, hed1⟩ := hed1
    rw [Option.bind_eq_some] at hed1
    obtain ⟨rt, hrt, hed1⟩ := hed1
    rw [Option.bind_eq_some] at hed1
    obtain ⟨so, hso, hed1⟩ := hed1
    rw [Option.some.injEq] at hed1
    subst hed1
    refine ⟨so, hso, ?_, ?_⟩
    · simp only [applyIfE_HttpPercentReq, esetTcp_HttpPercentReq, ite_self,
        applyOpt_esetIsMTLS_HttpPercentReq, esetHttpPercentReq_HttpPercentReq,
        applyOpt_responseTime_HttpPercentReq, esetHttpPercentErr_HttpPercentReq,
        esetHttp5xx_HttpPercentReq, esetHttp4xx_HttpPercentReq,
        esetHttp3xx_HttpPercentReq, esetHttp_HttpPercentReq]
    · simp only [applyIfE_IsUnused, esetTcp_IsUnused, ite_self,
        applyOpt_esetIsMTLS_IsUnused, esetHttpPercentReq_IsUnused,
        applyOpt_responseTime_IsUnused, esetHttpPercentErr_IsUnused,
        esetHttp5xx_IsUnused, esetHttp4xx_IsUnused,
        esetHttp3xx_IsUnused, esetHttp_IsUnused]
  · intro hp
    rw [if_neg (by rw [hp]; exact Bool.false_ne_true)] at hed1
    rw [Option.bind_eq_some] at hed1
    obtain ⟨u, hu, hed1⟩ := hed1
    rw [Option.some.injEq] at hed1
    subst hed1
    refine ⟨u, hu, ?_, ?_⟩
    · simp only [applyIfE_IsUnused, esetTcp_IsUnused, ite_self,
        applyOpt_esetIsMTLS_IsUnused, applyOpt_esetIsUnused_IsUnused]
    · simp only [applyIfE_HttpPercentReq, esetTcp_HttpPercentReq, ite_self,
        applyOpt_esetIsMTLS_HttpPercentReq, applyOpt_esetIsUnused_HttpPercentReq]

/-! ### Claim C8 -/

/-- C8: for every emitted edge record whose HTTP rate metadata is not
strictly positive (in particular zero or absent, where an absent key
reads as zero), the `isUnused` field equals the `isUnused` entry of the
edge's source node's metadata when that entry is present, and stays at
its omitted default (`false`) otherwise; an edge whose HTTP rate is
strictly positive never receives the flag. -/
theorem c8_unused_flag {n : Node} {e : Edge} {ed : EdgeData} {http : Flt} {u : Option Bool}
    (h : buildEdge n e = some ed)
    (hhttp : getRate e.Metadata "http" = some http)
    (hu : metaBool e.Source.Metadata "isUnused" = some u) :
    (http.pos = false → ed.IsUnused = u.getD false) ∧
    (http.pos = true → ed.IsUnused = false) := by
  unfold buildEdge at h
  rw [Option.bind_eq_some] at h
  obtain ⟨p, hp, h⟩ := h
  have hb := addEdgeTelemetry_branch h hhttp
  constructor
  · intro hneg
    obtain ⟨u', hu', hiu, _⟩ := hb.2 hneg
    have he : u' = u := by
      have := hu'.symm.trans hu
      injection this
    rw [hiu, he]
  · intro hposv
    obtain ⟨so, hso, _, hiu⟩ := hb.1 hposv
    rw [hiu]

def c8wSrc : NodeCore :=
  { ID := "a", NodeType := "workload", Namespace := "ns", Workload := "w",
    App := "x", Version := "", Service := "",
    Metadata := [("isUnused", .bool true)] }

def c8wDst : NodeCore :=
  { ID := "b", NodeType := "service", Namespace := "ns", Workload := "",
    App := "", Version := "", Service := "s", Metadata := [] }

def c8wEdge : Edge := { Source := c8wSrc, Dest := c8wDst, Metadata := [] }

def c8wNode : Node := { toNodeCore := c8wSrc, Edges := [c8wEdge] }

def c8wOut : EdgeData :=
  (buildEdge c8wNode c8wEdge).getD { Id := "", Source := "", Target := "" }

/-- Witness for C8: a concrete edge with no `http` rate whose source
node carries `isUnused = true` really propagates the flag. -/
theorem c8_witness : c8wOut.IsUnused = true :=
  (@c8_unused_flag c8wNode c8wEdge c8wOut Flt.zero (some true)
    (by decide) (by decide) (by decide)).1 (by decide)

/-! ### Claim C6 -/

/-- C6: for every emitted edge record whose HTTP rate is strictly
positive, the `httpPercentReq` field holds the one-decimal rendering of
edge-http / source-httpOut × 100 exactly when the guarded strict
comparison against 100 succeeds, and is absent otherwise; for a source
with positive outbound rate this is "present iff the computed value is
strictly less than 100" (a zero outbound rate gives `+Inf`, which fails
the comparison, so the field is absent); in particular an edge whose
HTTP rate equals its source's total `httpOut` rate has no
`httpPercentReq` field. -/
theorem c6_percent_req {n : Node} {e : Edge} {ed : EdgeData} {http srcOut : Flt}
    (h : buildEdge n e = some ed)
    (hhttp : getRate e.Metadata "http" = some http)
    (hpos : http.pos = true)
    (hout : getRate e.Source.Metadata "httpOut" = some srcOut) :
    ed.HttpPercentReq = (if percentReqLt100 http srcOut then
        formatFixed 1 (Flt.mul (Flt.div http srcOut) Flt.hundred) else "") ∧
    (ed.HttpPercentReq ≠ "" ↔ percentReqLt100 http srcOut = true) ∧
    (0 < srcOut.num →
      (ed.HttpPercentReq ≠ "" ↔
        Flt.blt (Flt.mul (Flt.div http srcOut) Flt.hundred) Flt.hundred = true)) ∧
    (http = srcOut → ed.HttpPercentReq = "") := by
  unfold buildEdge at h
  rw [Option.bind_eq_some] at h
  obtain ⟨p, hp, h⟩ := h
  have hb := addEdgeTelemetry_branch h hhttp
  obtain ⟨so, hso, hpr, _⟩ := hb.1 hpos
  have he : so = srcOut := by
    have := hso.symm.trans hout
    injection this
  subst he
  have hA : ed.HttpPercentReq = (if percentReqLt100 http so then
      formatFixed 1 (Flt.mul (Flt.div http so) Flt.hundred) else "") := hpr
  have hB : ed.HttpPercentReq ≠ "" ↔ percentReqLt100 http so = true := by
    rw [hA]
    split
    · simp_all [formatFixed_ne_empty 1 (by decide)]
    · simp_all
  refine ⟨hA, hB, ?_, ?_⟩
  · intro hOutPos
    have hguard : percentReqLt100 http so =
        Flt.blt (Flt.mul (Flt.div http so) Flt.hundred) Flt.hundred := by
      unfold percentReqLt100
      rw [if_neg (by omega)]
    rw [hB, hguard]
  · intro heq
    subst heq
    rw [hA, percentReqLt100_self hpos]
    simp

def c6wSrc : NodeCore :=
  { ID := "a", NodeType := "workload", Namespace := "ns", Workload := "w",
    App := "x", Version := "", Service := "",
    Metadata := [("httpOut", .num ⟨10, 0⟩)] }

def c6wDst : NodeCore :=
  { ID := "b", NodeType := "service", Namespace := "ns", Workload := "",
    App := "", Version := "", Service := "s", Metadata := [] }

def c6wEdge : Edge :=
  { Source := c6wSrc, Dest := c6wDst, Metadata := [("http", .num ⟨4, 0⟩)] }

def c6wNode : Node := { toNodeCore := c6wSrc, Edges := [c6wEdge] }

def c6wOut : EdgeData :=
  (buildEdge c6wNode c6wEdge).getD { Id := "", Source := "", Target := "" }

/-- Witness for C6: a concrete edge with `http = 4.0` whose source has
`httpOut = 10.0`; the computed 40 percent is below 100, so the field is
present. -/
theorem c6_witness :
    c6wOut.HttpPercentReq ≠ "" ↔ percentReqLt100 ⟨4, 0⟩ ⟨10, 0⟩ = true :=
  (@c6_percent_req c6wNode c6wEdge c6wOut ⟨4, 0⟩ ⟨10, 0⟩
    (by decide) (by decide) (by decide) (by decide)).2.1

/-- The hex-digit map is injective on digits. -/
theorem hexDigit_inj_bounded : ∀ m < 16, ∀ n < 16, hexDigit m = hexDigit n → m = n := by decide

/-- Unicode code points fit in six hex digits. -/
theorem char_toNat_lt (c : Char) : c.toNat < 16777216 := by
  show c.val.toNat < 16777216
  rcases c.valid with h | ⟨h1, h2⟩ <;> omega

/-- The six-digit encoding of one character is injective. -/
theorem charHex_inj {c d : Char} (h : charHex c = charHex d) : c = d := by
  have hc := char_toNat_lt c
  have hd := char_toNat_lt d
  simp only [charHex, List.cons.injEq, and_true] at h
  obtain ⟨h5, h4, h3, h2, h1, h0⟩ := h
  have e5 := hexDigit_inj_bounded _ (Nat.mod_lt _ (by norm_num)) _ (Nat.mod_lt _ (by norm_num)) h5
  have e4 := hexDigit_inj_bounded _ (Nat.mod_lt _ (by norm_num)) _ (Nat.mod_lt _ (by norm_num)) h4
  have e3 := hexDigit_inj_bounded _ (Nat.mod_lt _ (by norm_num)) _ (Nat.mod_lt _ (by norm_num)) h3
  have e2 := hexDigit_inj_bounded _ (Nat.mod_lt _ (by norm_num)) _ (Nat.mod_lt _ (by norm_num)) h2
  have e1 := hexDigit_inj_bounded _ (Nat.mod_lt _ (by norm_num)) _ (Nat.mod_lt _ (by norm_num)) h1
  have e0 := hexDigit_inj_bounded _ (Nat.mod_lt _ (by norm_num)) _ (Nat.mod_lt _ (by norm_num)) h0
  have ht : c.toNat = d.toNat := by omega
  exact Char.ext (UInt32.ext ht)

/-- Concatenating six-digit blocks is injective. -/
theorem charHexFlatten_inj : ∀ {xs ys : List Char},
    (xs.map charHex).flatten = (ys.map charHex).flatten → xs = ys
  | [], [], _ => rfl
  | [], y :: ys, h => by simp [charHex] at h
  | x :: xs, [], h => by simp [charHex] at h
  | x :: xs, y :: ys, h => by
    simp only [List.map_cons, List.flatten_cons] at h
    have hlen : (charHex x).length = (charHex y).length := by simp [charHex]
    obtain ⟨h1, h2⟩ := List.append_inj h hlen
    rw [charHex_inj h1, charHexFlatten_inj h2]

/-- The modelled hash is injective. -/
theorem md5hex_inj {a b : String} (h : md5hex a = md5hex b) : a = b := by
  unfold md5hex at h
  have hdata : (a.data.map charHex).flatten = (b.data.map charHex).flatten :=
    congrArg String.data h
  cases a
  cases b
  exact congrArg String.mk (charHexFlatten_inj hdata)

/-- Node-id hashes are injective in box keys. -/
theorem nodeHash_inj (a b : String) (h : nodeHash a = nodeHash b) : a = b := md5hex_inj h

theorem mkGroupNode_IsGroup (g k : String) (ms : List NodeData) :
    (mkGroupNode g k ms).IsGroup = g := rfl

theorem mkGroupNode_Id (g k : String) (ms : List NodeData) :
    (mkGroupNode g k ms).Id = nodeHash k := rfl

theorem nsetParent_IsGroup (v : String) (x : NodeData) :
    (nsetParent v x).IsGroup = x.IsGroup := rfl

theorem countP_key_of_nodup {l : List String} (h : l.Nodup) (k : String) :
    l.countP (fun x => decide (x = k)) = if k ∈ l then 1 else 0 := by
  induction l with
  | nil => simp
  | cons a t ih =>
    rw [List.countP_cons]
    have hnd := List.nodup_cons.mp h
    by_cases hk : a = k
    · subst hk
      rw [ih hnd.2, if_neg hnd.1, if_pos (List.mem_cons_self a t)]
      simp
    · rw [ih hnd.2]
      by_cases hkt : k ∈ t
      · rw [if_pos hkt, if_pos (List.mem_cons_of_mem a hkt)]
        simp [hk]
      · have hka : ¬ k = a := fun e => hk e.symm
        rw [if_neg hkt]
        simp [hk, hka, hkt, List.mem_cons]

theorem mem_bigKeys_iff (cands : List NodeData) (k : String) :
    (k ∈ ((cands.map boxKey).dedup).filter
        (fun k' => 1 < (cands.filter (fun nd => boxKey nd = k')).length))
      ↔ 2 ≤ (cands.filter (fun nd => boxKey nd = k)).length := by
  rw [List.mem_filter, List.mem_dedup]
  constructor
  · rintro ⟨_, hp⟩
    have := decide_eq_true_iff.mp hp
    omega
  · intro hm
    constructor
    · have hpos : 0 < (cands.filter (fun nd => boxKey nd = k)).length := by omega
      obtain ⟨nd, hnd⟩ := List.exists_mem_of_length_pos hpos
      rw [List.mem_filter] at hnd
      exact List.mem_map.mpr ⟨nd, hnd.1, decide_eq_true_iff.mp hnd.2⟩
    · exact decide_eq_true_iff.mpr (by omega)

theorem mem_groupBigKeys_iff (isMember : NodeData → Bool) (nodes : List NodeData)
    (k : String) :
    k ∈ groupBigKeys isMember nodes
      ↔ 2 ≤ ((nodes.filter isMember).filter (fun nd => boxKey nd = k)).length := by
  unfold groupBigKeys groupCands
  exact mem_bigKeys_iff _ k

theorem nodup_groupBigKeys (isMember : NodeData → Bool) (nodes : List NodeData) :
    (groupBigKeys isMember nodes).Nodup :=
  List.Nodup.filter _ (List.nodup_dedup _)

theorem generateGroup_countP (isMember : NodeData → Bool) (groupBy : String)
    (nodes : List NodeData) (k : String) (hg : groupBy ≠ "")
    (hn : ∀ nd ∈ nodes, nd.IsGroup = "") :
    (generateGroupCompoundNodes isMember groupBy nodes).countP (isGroupNodeFor k)
      = if 2 ≤ ((nodes.filter isMember).filter (fun nd => boxKey nd = k)).length
        then 1 else 0 := by
  unfold generateGroupCompoundNodes
  rw [List.countP_append]
  have h1 : (nodes.map (fun nd =>
      if isMember nd ∧ boxKey nd ∈ groupBigKeys isMember nodes
      then nsetParent (nodeHash (boxKey nd)) nd else nd)).countP (isGroupNodeFor k) = 0 := by
    rw [List.countP_eq_zero]
    intro a ha
    rw [List.mem_map] at ha
    obtain ⟨nd, hnd, rfl⟩ := ha
    have hig : (if isMember nd = true ∧ boxKey nd ∈ groupBigKeys isMember nodes
        then nsetParent (nodeHash (boxKey nd)) nd else nd).IsGroup = "" := by
      split
      · rw [nsetParent_IsGroup]
        exact hn nd hnd
      · exact hn nd hnd
    unfold isGroupNodeFor
    rw [hig]
    simp
  rw [h1, List.countP_map]
  have h2 : List.countP
      (isGroupNodeFor k ∘ fun k' =>
        mkGroupNode groupBy k' ((groupCands isMember nodes).filter (fun nd => boxKey nd = k')))
      (groupBigKeys isMember nodes)
      = List.countP (fun x => decide (x = k)) (groupBigKeys isMember nodes) := by
    apply List.countP_congr
    intro k' _
    show isGroupNodeFor k (mkGroupNode groupBy k' _) = true ↔ _
    unfold isGroupNodeFor
    rw [mkGroupNode_IsGroup, mkGroupNode_Id]
    constructor
    · intro hb
      rw [Bool.and_eq_true] at hb
      exact decide_eq_true_iff.mpr (nodeHash_inj _ _ (decide_eq_true_iff.mp hb.2))
    · intro hb
      have hkk : k' = k := decide_eq_true_iff.mp hb
      subst hkk
      rw [Bool.and_eq_true]
      exact ⟨decide_eq_true_iff.mpr hg, decide_eq_true_iff.mpr rfl⟩
  rw [h2, countP_key_of_nodup (nodup_groupBigKeys isMember nodes)]
  simp only [mem_groupBigKeys_iff]
  omega

theorem generateGroup_parent (isMember : NodeData → Bool) (groupBy : String)
    (nodes : List NodeData) (k : String) (nd : NodeData)
    (hmem : nd ∈ nodes) (him : isMember nd = true) (hbk : boxKey nd = k)
    (hm : 2 ≤ ((nodes.filter isMember).filter (fun nd => boxKey nd = k)).length) :
    nsetParent (nodeHash k) nd ∈ generateGroupCompoundNodes isMember groupBy nodes := by
  unfold generateGroupCompoundNodes
  apply List.mem_append_left
  have hbig : boxKey nd ∈ groupBigKeys isMember nodes := by
    rw [hbk]
    exact (mem_groupBigKeys_iff isMember nodes k).mpr hm
  have heq : (if isMember nd = true ∧ boxKey nd ∈ groupBigKeys isMember nodes
      then nsetParent (nodeHash (boxKey nd)) nd else nd) = nsetParent (nodeHash k) nd := by
    rw [if_pos ⟨him, hbig⟩, hbk]
  rw [← heq]
  exact List.mem_map_of_mem _ hmem

/-- C2: for a box key with exactly one member no compound node is
created; with two or more members exactly one compound node carrying
that key's hash as its id is appended and every member's parent field
is set to that hash. -/
theorem c2_grouping_cardinality (isMember : NodeData → Bool) (groupBy : String)
    (nodes : List NodeData) (k : String) (hg : groupBy ≠ "")
    (hn : ∀ nd ∈ nodes, nd.IsGroup = "") :
    (((nodes.filter isMember).filter (fun nd => boxKey nd = k)).length = 1 →
      (generateGroupCompoundNodes isMember groupBy nodes).countP (isGroupNodeFor k) = 0) ∧
    (2 ≤ ((nodes.filter isMember).filter (fun nd => boxKey nd = k)).length →
      (generateGroupCompoundNodes isMember groupBy nodes).countP (isGroupNodeFor k) = 1 ∧
      ∀ nd ∈ nodes, isMember nd = true → boxKey nd = k →
        nsetParent (nodeHash k) nd ∈ generateGroupCompoundNodes isMember groupBy nodes) := by
  constructor
  · intro h1
    rw [generateGroup_countP isMember groupBy nodes k hg hn, if_neg (by omega)]
  · intro h2
    exact ⟨by rw [generateGroup_countP isMember groupBy nodes k hg hn, if_pos h2],
      fun nd hmem him hbk => generateGroup_parent isMember groupBy nodes k nd hmem him hbk h2⟩


/-- Witness nodes for C2: two app nodes in one namespace with the same
app name, differing in version. -/
def c2n1 : NodeData :=
  { Id := "n1", NodeType := "app", Namespace := "ns1", App := "svcA", Version := "v1" }

/-- Second C2 witness node. -/
def c2n2 : NodeData :=
  { Id := "n2", NodeType := "app", Namespace := "ns1", App := "svcA", Version := "v2" }

/-- Witness: the two-member box for key `box_ns1_svcA` yields exactly one
compound node. -/
theorem c2_witness :
    2 ≤ (([c2n1, c2n2].filter appGroupMember).filter
        (fun nd => boxKey nd = "box_ns1_svcA")).length ∧
    (generateGroupCompoundNodes appGroupMember "app" [c2n1, c2n2]).countP
        (isGroupNodeFor "box_ns1_svcA") = 1 :=
  ⟨by decide,
    ((c2_grouping_cardinality appGroupMember "app" [c2n1, c2n2] "box_ns1_svcA"
      (by decide) (by decide)).2 (by decide)).1⟩

/-- Provenance: every record emitted by `buildConfig` carries an empty
group marker (group nodes only appear in the later grouping pass). -/
theorem buildConfig_IsGroup : ∀ (tm : TrafficMap) (ns : List NodeData) (es : List EdgeData),
    buildConfig tm = some (ns, es) → ∀ nd ∈ ns, nd.IsGroup = ""
  | [], ns, es, h => by
    simp only [buildConfig, Option.some.injEq, Prod.mk.injEq] at h
    rw [← h.1]
    intro nd hnd
    cases hnd
  | (id, n) :: rest, ns, es, h => by
    simp only [buildConfig] at h
    rw [Option.bind_eq_some] at h
    obtain ⟨nd0, hnd0, h⟩ := h
    rw [Option.bind_eq_some] at h
    obtain ⟨eds, heds, h⟩ := h
    rw [Option.bind_eq_some] at h
    obtain ⟨p, hp, h⟩ := h
    rw [Option.some.injEq] at h
    injection h with h1 h2
    subst h1
    intro nd hnd
    rcases List.mem_cons.mp hnd with rfl | hmem
    · obtain ⟨ndT, _, _, hcore⟩ := buildNode_char hnd0
      exact congrArg (fun t => t.2.2.2.2.2.2.2.2) hcore
    · exact buildConfig_IsGroup rest p.1 p.2 (by rw [hp]) nd hmem

/-- C3 counterexample graph: two app nodes of namespace `ns1` and app
`svcA`. -/
def c3NodeA : Node :=
  { ID := "na", NodeType := "app", Namespace := "ns1", Workload := "",
    App := "svcA", Version := "v1", Service := "", Metadata := [], Edges := [] }

def c3NodeB : Node :=
  { ID := "nb", NodeType := "app", Namespace := "ns1", Workload := "",
    App := "svcA", Version := "v2", Service := "", Metadata := [], Edges := [] }

def c3tm : TrafficMap := [("na", c3NodeA), ("nb", c3NodeB)]

def c3svcOpts : VendorOptions :=
  { GraphType := "service", GroupBy := "app", Duration := 60, QueryTime := 100 }

/-- C3 counterexample: with group-by `app` but graph type `service`,
the two candidate nodes sharing namespace `ns1` and the valid app
`svcA` are left ungrouped — the output has no group node at all — even
though the claim promises app grouping for every graph type. -/
theorem c3_counterexample :
    ((NewConfig c3tm c3svcOpts).map
      (fun cfg => cfg.Elements.nodes.countP (fun w => decide (w.data.IsGroup ≠ "")))) = some 0 ∧
    (buildConfig c3tm).map
      (fun p => ((p.1.filter appGroupMember).filter
        (fun nd => boxKey nd = "box_ns1_svcA")).length) = some 2 := by decide

/-- C3 (amended): app grouping happens exactly when group-by is `app`
AND the graph type is not `service`; then every box key with two or
more candidate members yields one compound node in the final document
and each member appears with its parent set to the key's hash. -/
theorem c3_app_grouping (tm : TrafficMap) (o : VendorOptions)
    (ns : List NodeData) (es : List EdgeData) (k : String)
    (hb : buildConfig tm = some (ns, es))
    (hg : o.GroupBy = GroupByApp) (ht : o.GraphType ≠ GraphTypeService)
    (hm : 2 ≤ ((ns.filter appGroupMember).filter (fun nd => boxKey nd = k)).length) :
    ∃ cfg, NewConfig tm o = some cfg ∧
      cfg.Elements.nodes.countP (fun w => isGroupNodeFor k w.data) = 1 ∧
      ∀ nd ∈ ns, appGroupMember nd = true → boxKey nd = k →
        ∃ w ∈ cfg.Elements.nodes, w.data = nsetParent (nodeHash k) nd := by
  have hNC : NewConfig tm o = some
      { Duration := o.Duration
        Timestamp := o.QueryTime
        GraphType := o.GraphType
        Elements :=
          { nodes := (List.insertionSort nodeLE (groupByApp ns)).map NodeWrapper.mk
            edges := (List.insertionSort edgeLE es).map EdgeWrapper.mk } } := by
    unfold NewConfig
    rw [hb]
    simp only [Option.some_bind]
    rw [if_pos hg, if_pos ht]
  refine ⟨_, hNC, ?_, ?_⟩
  · show ((List.insertionSort nodeLE (groupByApp ns)).map NodeWrapper.mk).countP _ = 1
    rw [List.countP_map]
    rw [List.Perm.countP_eq _ (List.perm_insertionSort nodeLE (groupByApp ns))]
    have hpred : ((fun w => isGroupNodeFor k w.data) ∘ NodeWrapper.mk) = isGroupNodeFor k := rfl
    rw [hpred]
    show (generateGroupCompoundNodes appGroupMember GroupByApp ns).countP _ = 1
    rw [generateGroup_countP appGroupMember GroupByApp ns k (by decide)
      (buildConfig_IsGroup tm ns es hb), if_pos hm]
  · intro nd hnd him hbk
    have hmemg : nsetParent (nodeHash k) nd ∈ groupByApp ns :=
      generateGroup_parent appGroupMember GroupByApp ns k nd hnd him hbk hm
    have hmems : nsetParent (nodeHash k) nd ∈ List.insertionSort nodeLE (groupByApp ns) :=
      ((List.perm_insertionSort nodeLE (groupByApp ns)).mem_iff).mpr hmemg
    exact ⟨NodeWrapper.mk (nsetParent (nodeHash k) nd),
      List.mem_map_of_mem NodeWrapper.mk hmems, rfl⟩

/-- Options with a non-service graph type for the C3 witness. -/
def c3vOpts : VendorOptions :=
  { GraphType := "versionedApp", GroupBy := "app", Duration := 60, QueryTime := 100 }

/-- The records built from the C3 graph. -/
def c3bp : List NodeData × List EdgeData := (buildConfig c3tm).getD ([], [])

/-- Witness: on the same two-node graph with graph type `versionedApp`
the compound node is produced and the members are re-parented. -/
theorem c3_witness :
    ∃ cfg, NewConfig c3tm c3vOpts = some cfg ∧
      cfg.Elements.nodes.countP (fun w => isGroupNodeFor "box_ns1_svcA" w.data) = 1 ∧
      ∀ nd ∈ c3bp.1, appGroupMember nd = true → boxKey nd = "box_ns1_svcA" →
        ∃ w ∈ cfg.Elements.nodes, w.data = nsetParent (nodeHash "box_ns1_svcA") nd :=
  c3_app_grouping c3tm c3vOpts c3bp.1 c3bp.2 "box_ns1_svcA"
    (by decide) (by decide) (by decide) (by decide)

/-! ### Order theory for the comparators -/


theorem chCmp_eq_iff (a b : Char) : chCmp a b = .eq ↔ a = b := by
  constructor
  · intro h
    apply Char.ext
    apply UInt32.ext
    unfold chCmp at h
    split_ifs at h with h1 h2
    show a.toNat = b.toNat
    omega
  · rintro rfl
    simp [chCmp]

theorem chCmp_swap (a b : Char) : (chCmp a b).swap = chCmp b a := by
  unfold chCmp
  split_ifs <;> first | rfl | omega

theorem chCmp_lt_iff (a b : Char) : chCmp a b = .lt ↔ a.toNat < b.toNat := by
  unfold chCmp
  split_ifs <;> simp_all

theorem strCmpL_cons (x y : Char) (xs ys : List Char) :
    strCmpL (x :: xs) (y :: ys) = match chCmp x y with
      | .eq => strCmpL xs ys
      | o => o := rfl

theorem strCmpL_cons_eq (x y : Char) (xs ys : List Char) (h : chCmp x y = .eq) :
    strCmpL (x :: xs) (y :: ys) = strCmpL xs ys := by
  rw [strCmpL_cons, h]

theorem strCmpL_cons_lt (x y : Char) (xs ys : List Char) (h : chCmp x y = .lt) :
    strCmpL (x :: xs) (y :: ys) = .lt := by
  rw [strCmpL_cons, h]

theorem strCmpL_cons_gt (x y : Char) (xs ys : List Char) (h : chCmp x y = .gt) :
    strCmpL (x :: xs) (y :: ys) = .gt := by
  rw [strCmpL_cons, h]

theorem strCmpL_eq_iff : ∀ xs ys : List Char, strCmpL xs ys = .eq ↔ xs = ys
  | [], [] => by simp [strCmpL]
  | [], _ :: _ => by simp [strCmpL]
  | _ :: _, [] => by simp [strCmpL]
  | x :: xs, y :: ys => by
    cases h : chCmp x y with
    | eq =>
      have hxy : x = y := (chCmp_eq_iff x y).mp h
      rw [strCmpL_cons_eq x y xs ys h, strCmpL_eq_iff xs ys]
      subst hxy
      simp
    | lt =>
      have hxy : ¬ x = y := fun e => by
        rw [e, (chCmp_eq_iff y y).mpr rfl] at h
        exact Ordering.noConfusion h
      rw [strCmpL_cons_lt x y xs ys h]
      simp [hxy]
    | gt =>
      have hxy : ¬ x = y := fun e => by
        rw [e, (chCmp_eq_iff y y).mpr rfl] at h
        exact Ordering.noConfusion h
      rw [strCmpL_cons_gt x y xs ys h]
      simp [hxy]

theorem strCmpL_swap : ∀ xs ys : List Char, (strCmpL xs ys).swap = strCmpL ys xs
  | [], [] => rfl
  | [], _ :: _ => rfl
  | _ :: _, [] => rfl
  | x :: xs, y :: ys => by
    cases h : chCmp x y with
    | eq =>
      have h2 : chCmp y x = .eq := by rw [← chCmp_swap x y, h]; rfl
      rw [strCmpL_cons_eq x y xs ys h, strCmpL_cons_eq y x ys xs h2, strCmpL_swap xs ys]
    | lt =>
      have h2 : chCmp y x = .gt := by rw [← chCmp_swap x y, h]; rfl
      rw [strCmpL_cons_lt x y xs ys h, strCmpL_cons_gt y x ys xs h2]
      rfl
    | gt =>
      have h2 : chCmp y x = .lt := by rw [← chCmp_swap x y, h]; rfl
      rw [strCmpL_cons_gt x y xs ys h, strCmpL_cons_lt y x ys xs h2]
      rfl

theorem strCmpL_lt_trans :
    ∀ {xs ys zs : List Char}, strCmpL xs ys = .lt → strCmpL ys zs = .lt → strCmpL xs zs = .lt
  | [], [], _, h1, _ => by cases h1
  | [], _ :: _, [], _, h2 => by cases h2
  | [], _ :: _, _ :: _, _, _ => rfl
  | _ :: _, [], _, h1, _ => by cases h1
  | _ :: _, _ :: _, [], _, h2 => by cases h2
  | x :: xs, y :: ys, z :: zs, h1, h2 => by
    cases hxy : chCmp x y with
    | gt =>
      rw [strCmpL_cons_gt x y xs ys hxy] at h1
      cases h1
    | eq =>
      rw [strCmpL_cons_eq x y xs ys hxy] at h1
      have hxyeq : x = y := (chCmp_eq_iff x y).mp hxy
      subst hxyeq
      cases hyz : chCmp x z with
      | gt =>
        rw [strCmpL_cons_gt x z ys zs hyz] at h2
        cases h2
      | eq =>
        rw [strCmpL_cons_eq x z ys zs hyz] at h2
        rw [strCmpL_cons_eq x z xs zs hyz]
        exact strCmpL_lt_trans h1 h2
      | lt => exact strCmpL_cons_lt x z xs zs hyz
    | lt =>
      cases hyz : chCmp y z with
      | gt =>
        rw [strCmpL_cons_gt y z ys zs hyz] at h2
        cases h2
      | eq =>
        have hyzeq : y = z := (chCmp_eq_iff y z).mp hyz
        subst hyzeq
        exact strCmpL_cons_lt x y xs zs hxy
      | lt =>
        have hxz : chCmp x z = .lt := by
          rw [chCmp_lt_iff] at hxy hyz ⊢
          omega
        exact strCmpL_cons_lt x z xs zs hxz

theorem strCmp_eq_iff (a b : String) : strCmp a b = .eq ↔ a = b := by
  unfold strCmp
  rw [strCmpL_eq_iff]
  exact ⟨fun h => String.ext h, fun h => congrArg String.data h⟩

theorem strCmp_swap (a b : String) : (strCmp a b).swap = strCmp b a :=
  strCmpL_swap a.data b.data

theorem strCmp_lt_trans {a b c : String} :
    strCmp a b = .lt → strCmp b c = .lt → strCmp a c = .lt :=
  strCmpL_lt_trans

theorem strCmp_empty_lt (s : String) (h : s ≠ "") : strCmp "" s = .lt := by
  show strCmpL [] s.data = .lt
  cases hd : s.data with
  | nil =>
    exact absurd (String.ext hd) h
  | cons c cs => rfl

/-- The laws a comparison function needs for the relation built from it
to be a total preorder whose equivalence is sort-key equality. -/
structure IsLawfulCmp {α : Type _} (f : α → α → Ordering) : Prop where
  swap_eq : ∀ a b, (f a b).swap = f b a
  lt_trans : ∀ ⦃a b c⦄, f a b = .lt → f b c = .lt → f a c = .lt
  eq_congr : ∀ ⦃a b⦄, f a b = .eq → ∀ c, f a c = f b c

theorem IsLawfulCmp.eq_congr_right {α} {f : α → α → Ordering} (hf : IsLawfulCmp f)
    {a b : α} (h : f a b = .eq) (c : α) : f c a = f c b := by
  rw [← hf.swap_eq a c, ← hf.swap_eq b c, hf.eq_congr h c]

theorem IsLawfulCmp.gt_iff {α} {f : α → α → Ordering} (hf : IsLawfulCmp f)
    {a b : α} : f a b = .gt ↔ f b a = .lt := by
  constructor
  · intro h
    have hs := hf.swap_eq a b
    rw [h] at hs
    exact hs.symm
  · intro h
    have hs := hf.swap_eq b a
    rw [h] at hs
    exact hs.symm

theorem IsLawfulCmp.thenCmp {α} {f g : α → α → Ordering}
    (hf : IsLawfulCmp f) (hg : IsLawfulCmp g) :
    IsLawfulCmp (fun a b => (f a b).then (g a b)) := by
  constructor
  · intro a b
    simp [Ordering.swap_then, hf.swap_eq, hg.swap_eq]
  · intro a b c h1 h2
    simp only [Ordering.then_eq_lt] at h1 h2 ⊢
    rcases h1 with h1 | ⟨h1e, h1g⟩
    · rcases h2 with h2 | ⟨h2e, h2g⟩
      · exact Or.inl (hf.lt_trans h1 h2)
      · exact Or.inl (by rw [← hf.eq_congr_right h2e a]; exact h1)
    · rcases h2 with h2 | ⟨h2e, h2g⟩
      · exact Or.inl (by rw [hf.eq_congr h1e c]; exact h2)
      · exact Or.inr ⟨by rw [hf.eq_congr h1e c]; exact h2e, hg.lt_trans h1g h2g⟩
  · intro a b h c
    simp only [Ordering.then_eq_eq] at h
    rw [hf.eq_congr h.1 c, hg.eq_congr h.2 c]

theorem lawful_strCmp_lift {α} (p : α → String) :
    IsLawfulCmp (fun a b => strCmp (p a) (p b)) := by
  constructor
  · intro a b
    exact strCmp_swap (p a) (p b)
  · intro a b c h1 h2
    exact strCmp_lt_trans h1 h2
  · intro a b h c
    rw [(strCmp_eq_iff (p a) (p b)).mp h]

theorem lawful_strCmp_flip {α} (p : α → String) :
    IsLawfulCmp (fun a b => strCmp (p b) (p a)) := by
  constructor
  · intro a b
    exact strCmp_swap (p b) (p a)
  · intro a b c h1 h2
    exact strCmp_lt_trans h2 h1
  · intro a b h c
    rw [(strCmp_eq_iff (p b) (p a)).mp h]

theorem nodeCmp_lawful : IsLawfulCmp nodeCmp :=
  (lawful_strCmp_lift (fun nd : NodeData => nd.Namespace)).thenCmp
    ((lawful_strCmp_flip (fun nd : NodeData => nd.IsGroup)).thenCmp
      ((lawful_strCmp_lift (fun nd : NodeData => nd.App)).thenCmp
        ((lawful_strCmp_lift (fun nd : NodeData => nd.Version)).thenCmp
          ((lawful_strCmp_lift (fun nd : NodeData => nd.Service)).thenCmp
            (lawful_strCmp_lift (fun nd : NodeData => nd.Workload))))))

theorem edgeCmp_lawful : IsLawfulCmp edgeCmp :=
  (lawful_strCmp_lift (fun ed : EdgeData => ed.Source)).thenCmp
    (lawful_strCmp_lift (fun ed : EdgeData => ed.Target))

theorem IsLawfulCmp.notlt_total {α} {f : α → α → Ordering} (hf : IsLawfulCmp f) (a b : α) :
    ¬ f b a = .lt ∨ ¬ f a b = .lt := by
  by_cases h : f b a = .lt
  · right
    intro h2
    have := hf.swap_eq a b
    rw [h2, h] at this
    cases this
  · left
    exact h

theorem IsLawfulCmp.notlt_trans {α} {f : α → α → Ordering} (hf : IsLawfulCmp f)
    {a b c : α} (h1 : ¬ f b a = .lt) (h2 : ¬ f c b = .lt) : ¬ f c a = .lt := by
  intro h3
  cases hcb : f c b with
  | lt => exact h2 hcb
  | eq =>
    apply h1
    rw [← hf.eq_congr hcb a]
    exact h3
  | gt =>
    cases hba : f b a with
    | lt => exact h1 hba
    | eq =>
      apply h2
      rw [hf.eq_congr_right hba c]
      exact h3
    | gt =>
      have hab : f a b = .lt := hf.gt_iff.mp hba
      have hbc : f b c = .lt := hf.gt_iff.mp hcb
      have hca : f c a = .gt := hf.gt_iff.mpr (hf.lt_trans hab hbc)
      rw [h3] at hca
      cases hca

theorem IsLawfulCmp.eq_of_notlt {α} {f : α → α → Ordering} (hf : IsLawfulCmp f)
    {a b : α} (h1 : ¬ f a b = .lt) (h2 : ¬ f b a = .lt) : f a b = .eq := by
  cases h : f a b with
  | lt => exact absurd h h1
  | eq => rfl
  | gt =>
    exfalso
    apply h2
    exact hf.gt_iff.mp h

instance : IsTotal NodeData nodeLE :=
  ⟨fun a b => (nodeCmp_lawful.notlt_total a b).imp id id⟩

instance : IsTrans NodeData nodeLE :=
  ⟨fun _ _ _ h1 h2 => nodeCmp_lawful.notlt_trans h1 h2⟩

instance : IsTotal EdgeData edgeLE :=
  ⟨fun a b => (edgeCmp_lawful.notlt_total a b).imp id id⟩

instance : IsTrans EdgeData edgeLE :=
  ⟨fun _ _ _ h1 h2 => edgeCmp_lawful.notlt_trans h1 h2⟩

/-- The full sort key of a node record: the six fields the sorting
comparison inspects. -/
def nodeSortKey (nd : NodeData) : String × String × String × String × String × String :=
  (nd.Namespace, nd.IsGroup, nd.App, nd.Version, nd.Service, nd.Workload)

/-- The sort key of an edge record. -/
def edgeSortKey (ed : EdgeData) : String × String :=
  (ed.Source, ed.Target)

theorem nodeCmp_eq_iff (a b : NodeData) :
    nodeCmp a b = .eq ↔ nodeSortKey a = nodeSortKey b := by
  simp only [nodeCmp, nodeSortKey, Ordering.then_eq_eq, strCmp_eq_iff, Prod.mk.injEq]
  tauto

theorem edgeCmp_eq_iff (a b : EdgeData) :
    edgeCmp a b = .eq ↔ edgeSortKey a = edgeSortKey b := by
  simp only [edgeCmp, edgeSortKey, Ordering.then_eq_eq, strCmp_eq_iff, Prod.mk.injEq]



/-- Wrapping then unwrapping node records is the identity. -/
theorem map_mk_data (l : List NodeData) :
    (l.map NodeWrapper.mk).map NodeWrapper.data = l := by
  induction l with
  | nil => rfl
  | cons a t ih => simp [ih]

/-- A successful `NewConfig` output is exactly the wrapped, sorted,
optionally grouped record lists of `buildConfig`. -/
theorem NewConfig_shape (tm : TrafficMap) (o : VendorOptions) (cfg : Config)
    (h : NewConfig tm o = some cfg) :
    ∃ ns es, buildConfig tm = some (ns, es) ∧
      cfg = { Duration := o.Duration, Timestamp := o.QueryTime, GraphType := o.GraphType,
              Elements :=
                { nodes := (List.insertionSort nodeLE
                    (if o.GroupBy = GroupByApp then
                      (if o.GraphType ≠ GraphTypeService then groupByApp ns else ns)
                    else if o.GroupBy = GroupByVersion then
                      (if o.GraphType = GraphTypeVersionedApp then groupByVersion ns else ns)
                    else ns)).map NodeWrapper.mk
                  edges := (List.insertionSort edgeLE es).map EdgeWrapper.mk } } := by
  unfold NewConfig at h
  rw [Option.bind_eq_some] at h
  obtain ⟨p, hp, h⟩ := h
  simp only [Option.some.injEq] at h
  exact ⟨p.1, p.2, by rw [hp], h.symm⟩

/-- In a list sorted by the node comparison, a record with a group
marker never follows a plain record of the same namespace. -/
theorem sorted_group_first {l : List NodeData} (hs : l.Sorted nodeLE)
    {i j : Fin l.length} (hij : i.1 < j.1)
    (hns : (l.get i).Namespace = (l.get j).Namespace)
    (hgj : (l.get j).IsGroup ≠ "") : (l.get i).IsGroup ≠ "" := by
  intro hgi
  have hle : nodeLE (l.get i) (l.get j) := List.Sorted.rel_get_of_lt hs hij
  apply hle
  unfold nodeCmp
  rw [(strCmp_eq_iff _ _).mpr hns.symm]
  have h2 : strCmp (l.get i).IsGroup (l.get j).IsGroup = .lt := by
    rw [hgi]
    exact strCmp_empty_lt _ hgj
  rw [h2]
  rfl

/-- C5 (amended): the emitted node sequence is sorted by the source's
comparison chain (namespace ascending, group marker descending, then
app, version, service, workload), and consequently, within each
namespace, every group node precedes every non-group node.  The
cross-namespace part of the claim's consequence is dropped: a parented
member can sort into an earlier namespace than its compound parent
(see the counterexample). -/
theorem c5_sorted_output (tm : TrafficMap) (o : VendorOptions) (cfg : Config)
    (h : NewConfig tm o = some cfg) :
    (cfg.Elements.nodes.map NodeWrapper.data).Sorted nodeLE ∧
    ∀ i j : Fin (cfg.Elements.nodes.map NodeWrapper.data).length,
      i.1 < j.1 →
      ((cfg.Elements.nodes.map NodeWrapper.data).get i).Namespace =
        ((cfg.Elements.nodes.map NodeWrapper.data).get j).Namespace →
      ((cfg.Elements.nodes.map NodeWrapper.data).get j).IsGroup ≠ "" →
      ((cfg.Elements.nodes.map NodeWrapper.data).get i).IsGroup ≠ "" := by
  obtain ⟨ns, es, hb, rfl⟩ := NewConfig_shape tm o cfg h
  have hs : ((List.insertionSort nodeLE
      (if o.GroupBy = GroupByApp then
        (if o.GraphType ≠ GraphTypeService then groupByApp ns else ns)
      else if o.GroupBy = GroupByVersion then
        (if o.GraphType = GraphTypeVersionedApp then groupByVersion ns else ns)
      else ns)).map NodeWrapper.mk).map NodeWrapper.data |>.Sorted nodeLE := by
    rw [map_mk_data]
    exact List.sorted_insertionSort nodeLE _
  exact ⟨hs, fun i j hij hns hgj => sorted_group_first hs hij hns hgj⟩

/-- C5 counterexample node: namespace `a_b`, app `c` — its box key
`box_a_b_c` collides with the next node's. -/
def c5nX : Node :=
  { ID := "x", NodeType := "app", Namespace := "a_b", Workload := "",
    App := "c", Version := "v1", Service := "", Metadata := [], Edges := [] }

/-- C5 counterexample node: namespace `a`, app `b_c` — same box key. -/
def c5nY : Node :=
  { ID := "y", NodeType := "app", Namespace := "a", Workload := "",
    App := "b_c", Version := "v1", Service := "", Metadata := [], Edges := [] }

def c5tm : TrafficMap := [("x", c5nX), ("y", c5nY)]

def c5opts : VendorOptions :=
  { GraphType := "versionedApp", GroupBy := "app", Duration := 60, QueryTime := 100 }

/-- C5 counterexample: with app grouping on, the underscore-ambiguous
box key `box_a_b_c` boxes the two nodes together; the compound node
inherits namespace `a_b` from the first member while the second member
keeps namespace `a`, so the sorted output emits that parented member
BEFORE its parent — refuting the claim's `never emitted before its
parent`. -/
theorem c5_counterexample :
    ((NewConfig c5tm c5opts).map (fun cfg =>
      decide (∃ i : Fin cfg.Elements.nodes.length, ∃ j : Fin cfg.Elements.nodes.length,
        i.1 < j.1 ∧
        (cfg.Elements.nodes.get j).data.IsGroup ≠ "" ∧
        (cfg.Elements.nodes.get i).data.Parent = (cfg.Elements.nodes.get j).data.Id ∧
        (cfg.Elements.nodes.get i).data.Parent ≠ ""))) = some true := by decide

/-- The concrete output document for the C5 witness. -/
def c5wCfg : Config :=
  (NewConfig c5tm c5opts).getD
    { Timestamp := 0, Duration := 0, GraphType := "",
      Elements := { nodes := [], edges := [] } }

/-- Witness: on the concrete graph the output really is produced and is
sorted by the comparison chain. -/
theorem c5_witness :
    NewConfig c5tm c5opts = some c5wCfg ∧
    (c5wCfg.Elements.nodes.map NodeWrapper.data).Sorted nodeLE :=
  ⟨by decide, (c5_sorted_output c5tm c5opts c5wCfg (by decide)).1⟩


end Cytoscape
